import Mathlib

/-!
# Verification of the tap-closeio incremental sync engine

Shallow embedding of `src/tap_closeio/streams.py`.  Pure helpers of the
source (`new_max_bookmark`, request construction, the page loop of
`paginated_sync`, the cursor loop of `sync_event_log`) are translated into
executable Lean definitions.  External collaborators (the HTTP transport,
the singer context's bookmark/offset store, the record transformer from
`transform.py`, which is not part of the sources) are modelled as explicit
inputs: the pages / JSON responses the transport would yield are passed as
lists, the store is an explicit state acted on by a trace of effects, and
the transformer is an arbitrary total function parameter.

Timestamps are ISO-8601 strings compared lexicographically, exactly as the
Python source compares them with `<` / `>=` on `str`.  The calendar
arithmetic of `pendulum` / `datetime.timedelta` is modelled by a proleptic
Gregorian date-time structure with epoch-second conversion.
-/

namespace TapCloseio

/-! ## Date-time model (for pendulum.parse / strftime / timedelta) -/

/-- A UTC date-time, the model of `pendulum`/`datetime` values used by the
tap (always timezone-aware UTC in the source). -/
structure PDateTime where
  year : Nat
  month : Nat
  day : Nat
  hour : Nat
  minute : Nat
  second : Nat
  microsecond : Nat
deriving DecidableEq, Repr

/-- Days since 1970-01-01 of a Gregorian civil date (Hinnant's
`days_from_civil`, the arithmetic underlying `datetime.date.toordinal`). -/
def daysFromCivil (y m d : Int) : Int :=
  let y' : Int := if m ≤ 2 then y - 1 else y
  let era : Int := (if 0 ≤ y' then y' else y' - 399) / 400
  let yoe : Int := y' - era * 400
  let mp : Int := if 2 < m then m - 3 else m + 9
  let doy : Int := (153 * mp + 2) / 5 + d - 1
  let doe : Int := yoe * 365 + yoe / 4 - yoe / 100 + doy
  era * 146097 + doe - 719468

/-- Inverse of `daysFromCivil` (Hinnant's `civil_from_days`). -/
def civilFromDays (z0 : Int) : Int × Int × Int :=
  let z : Int := z0 + 719468
  let era : Int := (if 0 ≤ z then z else z - 146096) / 146097
  let doe : Int := z - era * 146097
  let yoe : Int := (doe - doe / 1460 + doe / 36524 - doe / 146096) / 365
  let y : Int := yoe + era * 400
  let doy : Int := doe - (365 * yoe + yoe / 4 - yoe / 100)
  let mp : Int := (5 * doy + 2) / 153
  let d : Int := doy - (153 * mp + 2) / 5 + 1
  let m : Int := if mp < 10 then mp + 3 else mp - 9
  (if m ≤ 2 then y + 1 else y, m, d)

/-- Seconds since the Unix epoch of a `PDateTime` (microseconds ignored). -/
def toEpochSeconds (dt : PDateTime) : Int :=
  daysFromCivil dt.year dt.month dt.day * 86400
    + dt.hour * 3600 + dt.minute * 60 + dt.second

/-- Rebuild a `PDateTime` from epoch seconds, keeping a given microsecond
field (timedelta arithmetic in the tap only ever subtracts whole seconds,
which leaves `microsecond` untouched). -/
def ofEpochSeconds (s : Int) (micro : Nat) : PDateTime :=
  let days : Int := s / 86400
  let rem : Int := s % 86400
  let (y, m, d) := civilFromDays days
  { year := y.toNat, month := m.toNat, day := d.toNat
    hour := (rem / 3600).toNat, minute := (rem % 3600 / 60).toNat
    second := (rem % 60).toNat, microsecond := micro }

/-- Computes `dt - timedelta(seconds=k)`. -/
def subSeconds (dt : PDateTime) (k : Nat) : PDateTime :=
  ofEpochSeconds (toEpochSeconds dt - k) dt.microsecond

/-- Zero-padded decimal rendering, as `strftime` field formatting does. -/
def padNum (width n : Nat) : String :=
  let s := toString n
  String.mk (List.replicate (width - s.length) '0') ++ s

/-- Model of `dt.strftime("%Y-%m-%dT%H:%M")` — the minute-precision format used for
the leads query (streams.py line 107). -/
def fmtMinute (dt : PDateTime) : String :=
  padNum 4 dt.year ++ "-" ++ padNum 2 dt.month ++ "-" ++ padNum 2 dt.day ++
    "T" ++ padNum 2 dt.hour ++ ":" ++ padNum 2 dt.minute

/-- Model of `dt.strftime("%Y-%m-%dT%H:%M:%S")` — the second-precision format used
for the activities and event-log filters (streams.py lines 119, 129). -/
def fmtSecond (dt : PDateTime) : String :=
  fmtMinute dt ++ ":" ++ padNum 2 dt.second

/-- Model of `singer.utils.strftime`: the canonical bookmark format
`%Y-%m-%dT%H:%M:%S.%fZ` with 6-digit microseconds. -/
def singerStrftime (dt : PDateTime) : String :=
  fmtSecond dt ++ "." ++ padNum 6 dt.microsecond ++ "Z"

/-- Read an all-digit block as a number. -/
def digitsToNat? (cs : List Char) : Option Nat :=
  if cs ≠ [] ∧ cs.all Char.isDigit then
    some (cs.foldl (fun a c => a * 10 + (c.toNat - 48)) 0)
  else none

/-- Take up to six fractional-second digits and scale them to microseconds,
as ISO-8601 fraction parsing does. -/
def fracToMicro (cs : List Char) : Nat :=
  let padded := (cs ++ List.replicate 6 '0').take 6
  padded.foldl (fun a c => a * 10 + (c.toNat - 48)) 0

/-- Model of `pendulum.parse` restricted to the UTC ISO-8601 strings the tap
feeds it: `YYYY-MM-DDTHH:MM:SS`, optionally with a fractional-second part
and an optional trailing `Z` (the singer bookmark format and typical config
start dates).  Any other shape is a parse failure, which in the source
raises. -/
def parseIso (s : String) : Option PDateTime :=
  match s.data with
  | y1 :: y2 :: y3 :: y4 :: '-' :: m1 :: m2 :: '-' :: d1 :: d2 :: 'T' ::
      h1 :: h2 :: ':' :: mi1 :: mi2 :: ':' :: s1 :: s2 :: rest => do
    let y ← digitsToNat? [y1, y2, y3, y4]
    let mo ← digitsToNat? [m1, m2]
    let d ← digitsToNat? [d1, d2]
    let h ← digitsToNat? [h1, h2]
    let mi ← digitsToNat? [mi1, mi2]
    let se ← digitsToNat? [s1, s2]
    let micro ← match rest with
      | [] => some 0
      | ['Z'] => some 0
      | '.' :: fracRest =>
        let frac := fracRest.takeWhile Char.isDigit
        let tail := fracRest.dropWhile Char.isDigit
        if frac ≠ [] ∧ (tail = [] ∨ tail = ['Z']) then some (fracToMicro frac)
        else none
      | _ => none
    if mo ≥ 1 ∧ mo ≤ 12 ∧ d ≥ 1 ∧ d ≤ 31 ∧ h ≤ 23 ∧ mi ≤ 59 ∧ se ≤ 59 then
      some ⟨y, mo, d, h, mi, se, micro⟩
    else none
  | _ => none

/-! ## Python string comparison

Bookmarks are ISO-8601 strings and the source compares them with Python's
`<` / `>=` on `str`, which is lexicographic by code point.  Lean's `String`
order agrees, but its decision procedure does not reduce inside the kernel,
so the embedding uses an explicit lexicographic comparison on the character
list; `strLtb_iff` / `strLeb_iff` below connect it to the `<` / `≤` order
used in the theorem statements. -/

def listLtb : List Char → List Char → Bool
  | [], [] => false
  | [], _ :: _ => true
  | _ :: _, [] => false
  | a :: as, b :: bs =>
    if a < b then true else if b < a then false else listLtb as bs

/-- Python `a < b` on strings. -/
def strLtb (a b : String) : Bool := listLtb a.data b.data

/-- Python `a <= b` on strings. -/
def strLeb (a b : String) : Bool := !(strLtb b a)

theorem listLtb_iff : ∀ as bs : List Char, listLtb as bs = true ↔ List.Lex (· < ·) as bs := by
  intro as
  induction as with
  | nil =>
    intro bs
    cases bs with
    | nil =>
      apply iff_of_false
      · simp [listLtb]
      · intro h; cases h
    | cons b bs =>
      apply iff_of_true
      · simp [listLtb]
      · exact List.Lex.nil
  | cons a as ih =>
    intro bs
    cases bs with
    | nil =>
      apply iff_of_false
      · simp [listLtb]
      · intro h; cases h
    | cons b bs =>
      by_cases hab : a < b
      · apply iff_of_true
        · simp [listLtb, hab]
        · exact List.Lex.rel hab
      · by_cases hba : b < a
        · apply iff_of_false
          · simp [listLtb, hab, hba]
          · intro h
            cases h with
            | cons h' => exact lt_irrefl a hba
            | rel h' => exact hab h'
        · have heq : a = b := le_antisymm (le_of_not_lt hba) (le_of_not_lt hab)
          subst heq
          have hstep : listLtb (a :: as) (a :: bs) = listLtb as bs := by
            simp [listLtb, hab]
          rw [hstep, ih bs]
          constructor
          · intro h; exact List.Lex.cons h
          · intro h
            cases h with
            | cons h' => exact h'
            | rel h' => exact absurd h' hab

theorem strLtb_iff (a b : String) : strLtb a b = true ↔ a < b := by
  rw [String.lt_iff_toList_lt]
  exact listLtb_iff a.data b.data

theorem strLeb_iff (a b : String) : strLeb a b = true ↔ a ≤ b := by
  rw [strLeb, Bool.not_eq_true']
  rw [show (a ≤ b) = ¬ (b < a) from (eq_iff_iff).mpr not_lt.symm]
  constructor
  · intro h hlt
    exact absurd ((strLtb_iff b a).mpr hlt) (by simp [h])
  · intro h
    by_contra hc
    simp only [Bool.not_eq_false] at hc
    exact h ((strLtb_iff b a).mp hc)

theorem strLtb_eq_false_iff (a b : String) : strLtb a b = false ↔ b ≤ a := by
  rw [show (b ≤ a) = ¬ (a < b) from (eq_iff_iff).mpr not_lt.symm, ← strLtb_iff]
  simp

theorem strLeb_eq_false_iff (a b : String) : strLeb a b = false ↔ b < a := by
  rw [strLeb, Bool.not_eq_false']
  exact strLtb_iff b a

/-! ## JSON values and records -/

/-- A JSON value, the model of the Python objects that flow through the
sync: API responses, records, and the structured `data` / `previous_data`
payloads of event-log records. -/
inductive Value where
  | null
  | bool (b : Bool)
  | num (n : Int)
  | str (s : String)
  | arr (xs : List Value)
  | obj (fields : List (String × Value))

/-- Python truthiness (`if not response["data"]`, `if cursor_next`):
`None`, `False`, `0`, `""`, `[]` and an empty dict are falsy. -/
def Value.falsy : Value → Bool
  | .null => true
  | .bool b => !b
  | .num n => n == 0
  | .str s => s == ""
  | .arr xs => xs.isEmpty
  | .obj fs => fs.isEmpty

/-- A record: a Python dict from field name to JSON value. -/
abbrev Record := List (String × Value)

/-- Performs `record.get(key)`-style lookup; `record[key]` raises when this is
`none`. -/
def Record.get? (r : Record) (k : String) : Option Value :=
  (r.find? (fun p => p.1 == k)).map (·.2)

/-- Performs `record[key] = v` on a key already present (the event-log loop reads the
key first, so assignment is always a replacement there). -/
def Record.setKey (r : Record) (k : String) (v : Value) : Record :=
  r.map (fun p => if p.1 == k then (p.1, v) else p)

/-- Minimal JSON string escaping as `json.dumps` performs it. -/
def jsonEscapeChar (c : Char) : String :=
  if c = '"' then "\\\""
  else if c = '\\' then "\\\\"
  else if c = '\n' then "\\n"
  else if c = '\t' then "\\t"
  else if c = '\r' then "\\r"
  else String.mk [c]

def jsonEscape (s : String) : String :=
  String.join (s.data.map jsonEscapeChar)

mutual
/-- Model of `json.dumps` with its default separators, used to serialize the
`data` and `previous_data` payloads of event-log records. -/
def jsonDumps : Value → String
  | .null => "null"
  | .bool true => "true"
  | .bool false => "false"
  | .num n => toString n
  | .str s => "\"" ++ jsonEscape s ++ "\""
  | .arr xs => "[" ++ jsonDumpsArr xs ++ "]"
  | .obj fs => "\x7b" ++ jsonDumpsObj fs ++ "\x7d"

def jsonDumpsArr : List Value → String
  | [] => ""
  | [v] => jsonDumps v
  | v :: vs => jsonDumps v ++ ", " ++ jsonDumpsArr vs

def jsonDumpsObj : List (String × Value) → String
  | [] => ""
  | [(k, v)] => "\"" ++ jsonEscape k ++ "\": " ++ jsonDumps v
  | (k, v) :: fs => "\"" ++ jsonEscape k ++ "\": " ++ jsonDumps v ++ ", " ++ jsonDumpsObj fs
end

/-! ## Stream constants (streams.py lines 14-41) -/

/-- Modelled from the spec: the stream identifiers of `schemas.IDS` (a fixed
enumerated set of entity kinds); `schemas.py` is not among the sources, the
concrete strings are the streams' names. -/
def IDS_CUSTOM_FIELDS : String := "custom_fields"
def IDS_LEADS : String := "leads"
def IDS_ACTIVITIES : String := "activities"
def IDS_TASKS : String := "tasks"
def IDS_USERS : String := "users"
def IDS_EVENT_LOG : String := "event_log"

/-- The `PATHS` dict; `none` models the `KeyError` of an unknown key. -/
def PATHS (sid : String) : Option String :=
  if sid == IDS_CUSTOM_FIELDS then some "/custom_fields/lead/"
  else if sid == IDS_LEADS then some "/lead/"
  else if sid == IDS_ACTIVITIES then some "/activity/"
  else if sid == IDS_TASKS then some "/task/"
  else if sid == IDS_USERS then some "/user/"
  else if sid == IDS_EVENT_LOG then some "/event/"
  else none

/-- The `BOOK_KEYS` dict. -/
def BOOK_KEYS (sid : String) : Option String :=
  if sid == IDS_CUSTOM_FIELDS then some "date_updated"
  else if sid == IDS_LEADS then some "date_updated"
  else if sid == IDS_ACTIVITIES then some "date_created"
  else if sid == IDS_TASKS then some "date_updated"
  else if sid == IDS_USERS then some "date_updated"
  else if sid == IDS_EVENT_LOG then some "date_updated"
  else none

/-- The key `bookmark(tap_stream_id) = [tap_stream_id, BOOK_KEYS[tap_stream_id]]`. -/
def bookmarkKey (sid : String) : List String :=
  [sid, (BOOK_KEYS sid).getD ""]

/-! ## Requests, effects and the bookmark/offset store -/

/-- Modelled from the spec: a GET request descriptor as built by
`http.create_get_request(path, params=...)` (`http.py` is not among the
sources; the spec describes it as a simple request descriptor). -/
structure Request where
  path : String
  params : List (String × String)
deriving DecidableEq, Repr

/-- Model of `create_request(tap_stream_id, params)` (streams.py lines 83-85);
`none` models the `KeyError` on an unknown stream id. -/
def create_request (sid : String) (params : List (String × String)) :
    Option Request :=
  (PATHS sid).map (fun p => Request.mk p params)

/-- One observable side effect of a sync strategy, in program order:
a page request issued through the transport, a `write_records` emission, or
one of the context's bookmark/offset-store operations. -/
inductive Effect where
  | fetchPage (sid : String) (req : Request)
  | writeRecords (sid : String) (recs : List Record)
  | setOffset (key : List String) (skip : Nat)
  | clearOffsets (sid : String)
  | setBookmark (key : List String) (val : String)
  | writeState

/-- The singer context's bookmark/offset store: in-memory maps plus the
copies last flushed by `write_state`.  Modelled from the spec: `context.py`
is not among the sources; the spec describes `get_offset`/`set_offset`/
`clear_offsets`/`set_bookmark` as key-value operations and `write_state` as
a synchronous flush of persisted state. -/
structure TapState where
  offsets : List (List String × Nat)
  bookmarks : List (List String × String)
  persistedOffsets : List (List String × Nat)
  persistedBookmarks : List (List String × String)

/-- Association-list lookup for the store. -/
def lookupAssoc {α : Type} (xs : List (List String × α)) (k : List String) :
    Option α :=
  (xs.find? (fun p => p.1 == k)).map (·.2)

/-- Association-list update for the store — dict assignment, observable
only through `lookupAssoc`. -/
def setAssoc {α : Type} (xs : List (List String × α)) (k : List String)
    (v : α) : List (List String × α) :=
  (k, v) :: xs.filter (fun p => !(p.1 == k))

/-- How each effect acts on the store.  `clear_offsets(tap_stream_id)`
drops every offset key rooted at that stream id; `write_state` copies the
in-memory maps to the persisted ones; fetches and record emissions do not
touch the store. -/
def applyEffect (st : TapState) : Effect → TapState
  | .fetchPage _ _ => st
  | .writeRecords _ _ => st
  | .setOffset k v => { st with offsets := setAssoc st.offsets k v }
  | .clearOffsets sid =>
      { st with offsets := st.offsets.filter (fun p => p.1.head? ≠ some sid) }
  | .setBookmark k v => { st with bookmarks := setAssoc st.bookmarks k v }
  | .writeState =>
      { st with persistedOffsets := st.offsets,
                persistedBookmarks := st.bookmarks }

def applyTrace (st : TapState) (tr : List Effect) : TapState :=
  tr.foldl applyEffect st

/-- Modelled from the spec: `ctx.update_start_date_bookmark(key)` returns
the effective start watermark, seeding the bookmark from the configured
default start date on first run.  Returns the start value together with the
seeding effects (empty when the bookmark already exists). -/
def update_start_date_bookmark (st : TapState) (key : List String)
    (defaultStart : String) : String × List Effect :=
  match lookupAssoc st.bookmarks key with
  | some v => (v, [])
  | none => (defaultStart, [Effect.setBookmark key defaultStart])

/-- The per-sync collaborators that `ctx` supplies besides the store: the
date-normalizing transform of `transform.transform_dts` driven by
`ctx.schema_dt_paths` (modelled from the spec as an arbitrary total
record transform, per stream), `transform.format_leads` (likewise), and the
configuration values the strategies read. -/
structure Ctx where
  schemaXform : String → List Record → List Record
  formatLeads : List Record → List Record
  config_start_date : String
  config_activities_window_seconds : Option Nat

/-- Model of `format_dts(tap_stream_id, ctx, records)` (streams.py lines 50-52). -/
def format_dts (ctx : Ctx) (sid : String) (records : List Record) :
    List Record :=
  ctx.schemaXform sid records

/-- The dispatch `FORMATTERS.get(tap_stream_id, (lambda x: x))` with
`FORMATTERS = {IDS.LEADS: format_leads}` (streams.py lines 34-36, 70). -/
def FORMATTERS_get (ctx : Ctx) (sid : String) : List Record → List Record :=
  if sid == IDS_LEADS then ctx.formatLeads else (fun x => x)

/-! ## Fallible record-field access -/

/-- Reading `record[key]` for a string comparison: a missing key raises
`KeyError`, a non-string value would make the subsequent `str` comparison
raise `TypeError`; both abort the sync, modelled as `Except.error`. -/
def getStr (r : Record) (k : String) : Except Unit String :=
  match r.get? k with
  | some (Value.str s) => .ok s
  | _ => .error ()

/-- Model of `new_max_bookmark(max_bookmark, records, key)` (streams.py lines
43-47): fold the strict-`>` maximum of `record[key]` over the records,
raising on a record that lacks the key. -/
def new_max_bookmark (maxB : String) (records : List Record) (k : String) :
    Except Unit String :=
  match records with
  | [] => .ok maxB
  | r :: rs => do
    let v ← getStr r k
    new_max_bookmark (if strLtb maxB v then v else maxB) rs k

/-- The filter `[rec for rec in records if rec[bookmark_key] >= start_date]`
(streams.py line 73), raising on a record that lacks the key. -/
def filterToWrite (records : List Record) (k start : String) :
    Except Unit (List Record) :=
  match records with
  | [] => .ok []
  | r :: rs => do
    let v ← getStr r k
    let rest ← filterToWrite rs k start
    .ok (if strLeb start v then r :: rest else rest)

/-! ## paginated_sync (streams.py lines 65-80)

The transport collaborator's `paginate` generator is modelled by the list
of results it would yield: `.ok page` for a delivered page, `.error ()` for
an unrecoverable transport failure raised while fetching that page; the end
of the list is the paginator signalling no further pages.  The starting
`skip` (read from `ctx.get_offset` and passed to `paginate`) only selects
which pages the transport yields, so it is implicit in that list. -/

structure Page where
  records : List Record
  next_skip : Nat

/-- The `for page in paginate(...)` loop body of `paginated_sync`,
threading `max_bookmark` and accumulating the effect trace; returns the
trace and whether the loop ran to completion (reaching lines 78-80). -/
def paginatedSyncLoop (ctx : Ctx) (sid bkey : String) (req : Request) :
    List (Except Unit Page) → String → String → List Effect × Bool
  | [], _start, maxB =>
      ([.clearOffsets sid, .setBookmark (bookmarkKey sid) maxB, .writeState],
       true)
  | .error _ :: _, _, _ => ([.fetchPage sid req], false)
  | .ok page :: rest, start, maxB =>
    let records := FORMATTERS_get ctx sid (format_dts ctx sid page.records)
    match filterToWrite records bkey start with
    | .error _ => ([.fetchPage sid req], false)
    | .ok toWrite =>
      match new_max_bookmark maxB records bkey with
      | .error _ => ([.fetchPage sid req], false)
      | .ok maxB' =>
        let (tr, ok) := paginatedSyncLoop ctx sid bkey req rest start maxB'
        (.fetchPage sid req :: .writeRecords sid toWrite ::
           .setOffset [sid, "skip"] page.next_skip :: .writeState :: tr, ok)

/-- Model of `paginated_sync(tap_stream_id, ctx, request, start_date)`:
`max_bookmark` starts at `start_date`; a `BOOK_KEYS` miss models the
`KeyError` of line 66. -/
def paginated_sync (ctx : Ctx) (sid : String) (req : Request)
    (startDate : String) (pages : List (Except Unit Page)) :
    List Effect × Bool :=
  match BOOK_KEYS sid with
  | none => ([], false)
  | some bkey => paginatedSyncLoop ctx sid bkey req pages startDate startDate

/-! ## Stream strategies built on paginated_sync (streams.py lines 98-123) -/

/-- Model of `basic_paginator(tap_stream_id, ctx)` (lines 98-101). -/
def basic_paginator (sid : String) (ctx : Ctx) (st : TapState)
    (pages : List (Except Unit Page)) : List Effect × Bool :=
  match create_request sid [] with
  | none => ([], false)
  | some req =>
    let (startDate, preEff) :=
      update_start_date_bookmark st (bookmarkKey sid) ctx.config_start_date
    let (tr, ok) := paginated_sync ctx sid req startDate pages
    (preEff ++ tr, ok)

/-- Model of `sync_leads(ctx)` (lines 104-110): the server-side filter query uses
the start watermark truncated to minute precision, while the start passed
to `paginated_sync` is the untruncated bookmark.  A `pendulum.parse`
failure raises, modelled as an aborted run. -/
def sync_leads (ctx : Ctx) (st : TapState)
    (pages : List (Except Unit Page)) : List Effect × Bool :=
  let (startDate, preEff) :=
    update_start_date_bookmark st (bookmarkKey IDS_LEADS) ctx.config_start_date
  match parseIso startDate with
  | none => (preEff, false)
  | some dt =>
    let formattedStart := fmtMinute dt
    let query := "date_updated>=\"" ++ formattedStart ++ "\" sort:date_updated"
    match create_request IDS_LEADS [("query", query)] with
    | none => (preEff, false)
    | some req =>
      let (tr, ok) := paginated_sync ctx IDS_LEADS req startDate pages
      (preEff ++ tr, ok)

/-- Model of `sync_activities(ctx)` (lines 113-122): the start watermark is the
bookmark minus the configured look-back window, truncated to second
precision, and that truncated string (`formatted_start`) is also the start
passed to `paginated_sync`. -/
def sync_activities (ctx : Ctx) (st : TapState)
    (pages : List (Except Unit Page)) : List Effect × Bool :=
  let (startDateStr, preEff) :=
    update_start_date_bookmark st (bookmarkKey IDS_ACTIVITIES)
      ctx.config_start_date
  match parseIso startDateStr with
  | none => (preEff, false)
  | some d0 =>
    let offsetSecs := ctx.config_activities_window_seconds.getD 0
    let d := subSeconds d0 offsetSecs
    let formattedStart := fmtSecond d
    match create_request IDS_ACTIVITIES
        [("date_created__gt", formattedStart)] with
    | none => (preEff, false)
    | some req =>
      let (tr, ok) := paginated_sync ctx IDS_ACTIVITIES req formattedStart pages
      (preEff ++ tr, ok)

/-! ## sync_event_log (streams.py lines 125-157) -/

/-- Python's `min` on two strings: the first argument when it compares
less-or-equal. -/
def pymin (a b : String) : String := if strLeb a b then a else b

/-- The params dict of one event-log request: `date_updated__gte` always,
plus `_cursor` when a (truthy) cursor from the previous response is in
hand (lines 133-135). -/
def eventLogParams (formattedStart : String) (cursor : Option String) :
    List (String × String) :=
  [("date_updated__gte", formattedStart)] ++
    (match cursor with | none => [] | some c => [("_cursor", c)])

/-- The `_cursor` request-parameter rendering of a truthy `cursor_next`
value.  In practice the API's cursor is a string; the other branches are a
total stand-in for Python's string coercion of a non-string value. -/
def cursorParamStr : Value → String
  | .str s => s
  | v => jsonDumps v

/-- Serializing one event's structured payloads (lines 141-143):
`event["data"] = json.dumps(event["data"])` and likewise for
`previous_data`; a missing key raises `KeyError`. -/
def dumpEventPayload (ev : Record) : Except Unit Record := do
  let d ← match ev.get? "data" with
    | some v => Except.ok v
    | none => Except.error ()
  let ev1 := ev.setKey "data" (Value.str (jsonDumps d))
  let p ← match ev1.get? "previous_data" with
    | some v => Except.ok v
    | none => Except.error ()
  .ok (ev1.setKey "previous_data" (Value.str (jsonDumps p)))

def dumpEvents : List Record → Except Unit (List Record)
  | [] => .ok []
  | e :: es => do
    let e' ← dumpEventPayload e
    let es' ← dumpEvents es
    .ok (e' :: es')

/-- The elements of a truthy `data` array must be JSON objects to be
processed as records; anything else fails inside the transform/iteration. -/
def recordsOfValues : List Value → Option (List Record)
  | [] => some []
  | Value.obj fs :: rest => (recordsOfValues rest).map (fun rs => fs :: rs)
  | _ => none

/-- The clamp-and-commit tail of `sync_event_log` (lines 149-157): the
bookmark is set to `min(strftime(now - 5 minutes), max_bookmark)`.  Note
there is no `write_state` here. -/
def eventLogCommit (now : PDateTime) (maxB : String) : List Effect :=
  let five_minutes_ago := singerStrftime (subSeconds now 300)
  [Effect.setBookmark (bookmarkKey IDS_EVENT_LOG)
    (pymin five_minutes_ago maxB)]

/-- The `while True` cursor loop of `sync_event_log` (lines 132-148),
threading the cursor and `max_bookmark`.  The transport's responses are the
list of results `ctx.client.request_with_handling` would return, in order
(`.error ()` for a raised transport failure).  The loop always issues the
next request, so an exhausted list — a response that never arrives — is
modelled like a transport failure: the run does not complete. -/
def syncEventLogLoop (ctx : Ctx) (formattedStart : String) (now : PDateTime) :
    List (Except Unit Record) → Option String → String → List Effect × Bool
  | [], cursor, _maxB =>
    (match create_request IDS_EVENT_LOG (eventLogParams formattedStart cursor) with
     | none => ([], false)
     | some req => ([.fetchPage IDS_EVENT_LOG req], false))
  | resp? :: rest, cursor, maxB =>
    match create_request IDS_EVENT_LOG (eventLogParams formattedStart cursor) with
    | none => ([], false)
    | some req =>
      match resp? with
      | .error _ => ([.fetchPage IDS_EVENT_LOG req], false)
      | .ok resp =>
        match resp.get? "data" with
        | none => ([.fetchPage IDS_EVENT_LOG req], false)
        | some d =>
          if d.falsy then
            (.fetchPage IDS_EVENT_LOG req :: eventLogCommit now maxB, true)
          else
            match d with
            | .arr xs =>
              match recordsOfValues xs with
              | none => ([.fetchPage IDS_EVENT_LOG req], false)
              | some recs =>
                let events := format_dts ctx IDS_EVENT_LOG recs
                match dumpEvents events with
                | .error _ => ([.fetchPage IDS_EVENT_LOG req], false)
                | .ok events' =>
                  match new_max_bookmark maxB events' "date_updated" with
                  | .error _ =>
                    ([.fetchPage IDS_EVENT_LOG req,
                      .writeRecords IDS_EVENT_LOG events'], false)
                  | .ok maxB' =>
                    match resp.get? "cursor_next" with
                    | none =>
                      ([.fetchPage IDS_EVENT_LOG req,
                        .writeRecords IDS_EVENT_LOG events'], false)
                    | some cv =>
                      if cv.falsy then
                        (.fetchPage IDS_EVENT_LOG req ::
                           .writeRecords IDS_EVENT_LOG events' ::
                           eventLogCommit now maxB', true)
                      else
                        let (tr, ok) := syncEventLogLoop ctx formattedStart now
                          rest (some (cursorParamStr cv)) maxB'
                        (.fetchPage IDS_EVENT_LOG req ::
                           .writeRecords IDS_EVENT_LOG events' :: tr, ok)
            | _ => ([.fetchPage IDS_EVENT_LOG req], false)

/-- Model of `sync_event_log(ctx)` (lines 125-157).  `now` is the wall-clock reading
`datetime.utcnow()` of line 154, a parameter of the model. -/
def sync_event_log (ctx : Ctx) (st : TapState) (now : PDateTime)
    (responses : List (Except Unit Record)) : List Effect × Bool :=
  let (startDate, preEff) :=
    update_start_date_bookmark st (bookmarkKey IDS_EVENT_LOG)
      ctx.config_start_date
  match parseIso startDate with
  | none => (preEff, false)
  | some dt =>
    let (tr, ok) := syncEventLogLoop ctx (fmtSecond dt) now responses
      none startDate
    (preEff ++ tr, ok)

/-! ## Trace observers and declarative helpers for the theorems -/

def isSetBookmark : Effect → Bool
  | .setBookmark _ _ => true
  | _ => false

def isWriteState : Effect → Bool
  | .writeState => true
  | _ => false

def isFetch : Effect → Bool
  | .fetchPage _ _ => true
  | _ => false

/-- The value of the last `set_bookmark` for a key in a trace. -/
def committedBookmark (tr : List Effect) (k : List String) : Option String :=
  (tr.filterMap fun e => match e with
    | .setBookmark k' v => if k' == k then some v else none
    | _ => none).getLast?

/-- The record batches passed to `write_records`, in order. -/
def writtenPages (tr : List Effect) : List (List Record) :=
  tr.filterMap fun e => match e with
    | .writeRecords _ recs => some recs
    | _ => none

def writtenRecords (tr : List Effect) : List Record :=
  (writtenPages tr).flatten

/-- The requests of the `fetchPage` effects, in order. -/
def fetchReqs (tr : List Effect) : List Request :=
  tr.filterMap fun e => match e with
    | .fetchPage _ r => some r
    | _ => none

def countWriteState (tr : List Effect) : Nat :=
  (tr.filter isWriteState).length

def hasSetBookmark (tr : List Effect) : Bool :=
  tr.any isSetBookmark

/-- The effects strictly before the `n`-th `fetchPage` of a trace. -/
def beforeNthFetch : Nat → List Effect → List Effect
  | _, [] => []
  | n, e :: es =>
    if isFetch e then
      match n with
      | 0 => []
      | 1 => []
      | Nat.succ m => e :: beforeNthFetch m es
    else e :: beforeNthFetch n es

/-- The bookmark-field value of a record that is known to carry one. -/
def getStrD (r : Record) (k : String) : String :=
  match r.get? k with
  | some (Value.str s) => s
  | _ => ""

def hasStrKey (r : Record) (k : String) : Bool :=
  match r.get? k with
  | some (Value.str _) => true
  | _ => false

/-- Running lexicographic maximum, seeded with the start watermark — the
declarative counterpart of `new_max_bookmark`. -/
def maxFold (start : String) (vs : List String) : String :=
  vs.foldl (fun m v => if strLtb m v then v else m) start

/-- The transformed records of a page:
`formatter(format_dts(tap_stream_id, ctx, page.records))`. -/
def xformPage (ctx : Ctx) (sid : String) (p : Page) : List Record :=
  FORMATTERS_get ctx sid (format_dts ctx sid p.records)

/-! ## Lemmas about field access, filtering and the running maximum -/

theorem getStr_ok_of_hasStrKey (r : Record) (k : String)
    (h : hasStrKey r k = true) : getStr r k = .ok (getStrD r k) := by
  unfold hasStrKey at h
  cases hv : r.get? k with
  | none => rw [hv] at h; simp at h
  | some v =>
    rw [hv] at h
    cases v <;> simp_all [getStr, getStrD, hv]

theorem hasStrKey_of_getStr_ok (r : Record) (k : String) (s : String)
    (h : getStr r k = .ok s) : hasStrKey r k = true ∧ s = getStrD r k := by
  unfold getStr at h
  cases hv : r.get? k with
  | none => rw [hv] at h; simp at h
  | some v =>
    rw [hv] at h
    cases v <;> simp_all [hasStrKey, getStrD, hv]

theorem getStr_error_of_not_hasStrKey (r : Record) (k : String)
    (h : hasStrKey r k = false) : getStr r k = .error () := by
  unfold hasStrKey at h
  cases hv : r.get? k with
  | none => rw [hv] at h; simp [getStr, hv]
  | some v =>
    rw [hv] at h
    cases v <;> simp_all [getStr, hv]

theorem filterToWrite_ok (recs : List Record) (k start : String)
    (h : recs.all (fun r => hasStrKey r k) = true) :
    filterToWrite recs k start =
      .ok (recs.filter (fun r => strLeb start (getStrD r k))) := by
  induction recs with
  | nil => rfl
  | cons r rs ih =>
    simp only [List.all_cons, Bool.and_eq_true] at h
    unfold filterToWrite
    rw [getStr_ok_of_hasStrKey r k h.1, ih h.2]
    simp only [Bind.bind, Except.bind, List.filter_cons]

theorem filterToWrite_all_of_ok (recs : List Record) (k start : String)
    (l : List Record) (h : filterToWrite recs k start = .ok l) :
    recs.all (fun r => hasStrKey r k) = true := by
  induction recs generalizing l with
  | nil => rfl
  | cons r rs ih =>
    unfold filterToWrite at h
    cases hg : getStr r k with
    | error e => rw [hg] at h; exact absurd h (by simp [Bind.bind, Except.bind])
    | ok v =>
      rw [hg] at h
      cases hf : filterToWrite rs k start with
      | error e =>
        rw [hf] at h
        exact absurd h (by simp [Bind.bind, Except.bind])
      | ok rest =>
        simp only [List.all_cons, Bool.and_eq_true]
        exact ⟨(hasStrKey_of_getStr_ok r k v hg).1, ih rest hf⟩

theorem new_max_bookmark_ok (recs : List Record) (k : String) :
    ∀ m, recs.all (fun r => hasStrKey r k) = true →
    new_max_bookmark m recs k =
      .ok (maxFold m (recs.map (fun r => getStrD r k))) := by
  induction recs with
  | nil => intro m _; rfl
  | cons r rs ih =>
    intro m h
    simp only [List.all_cons, Bool.and_eq_true] at h
    unfold new_max_bookmark
    rw [getStr_ok_of_hasStrKey r k h.1]
    simp only [Bind.bind, Except.bind]
    rw [ih _ h.2]
    rfl

theorem new_max_bookmark_all_of_ok (recs : List Record) (k : String) :
    ∀ m b, new_max_bookmark m recs k = .ok b →
    recs.all (fun r => hasStrKey r k) = true := by
  induction recs with
  | nil => intro m b _; rfl
  | cons r rs ih =>
    intro m b h
    unfold new_max_bookmark at h
    cases hg : getStr r k with
    | error e => rw [hg] at h; exact absurd h (by simp [Bind.bind, Except.bind])
    | ok v =>
      rw [hg] at h
      simp only [Bind.bind, Except.bind] at h
      simp only [List.all_cons, Bool.and_eq_true]
      exact ⟨(hasStrKey_of_getStr_ok r k v hg).1, ih _ b h⟩

theorem new_max_bookmark_error (recs : List Record) (k : String) (m : String)
    (h : recs.all (fun r => hasStrKey r k) = false) :
    new_max_bookmark m recs k = .error () := by
  cases he : new_max_bookmark m recs k with
  | error e => rfl
  | ok b => rw [new_max_bookmark_all_of_ok recs k m b he] at h; cases h

/-- One step of the running maximum never decreases the accumulator. -/
theorem step_le (m v : String) : m ≤ if strLtb m v then v else m := by
  by_cases hlt : strLtb m v = true
  · rw [if_pos hlt]
    exact le_of_lt ((strLtb_iff m v).mp hlt)
  · rw [if_neg hlt]

theorem maxFold_le (vs : List String) : ∀ m, m ≤ maxFold m vs := by
  induction vs with
  | nil => intro m; exact le_refl m
  | cons v vs ih =>
    intro m
    unfold maxFold
    simp only [List.foldl_cons]
    exact le_trans (step_le m v) (ih _)

theorem maxFold_append (m : String) (vs ws : List String) :
    maxFold m (vs ++ ws) = maxFold (maxFold m vs) ws := by
  unfold maxFold
  rw [List.foldl_append]

/-- Values strictly below a bound that the accumulator already dominates do
not affect the running maximum. -/
theorem maxFold_filter (start : String) (vs : List String) :
    ∀ m, start ≤ m →
    maxFold m vs = maxFold m (vs.filter (fun v => strLeb start v)) := by
  induction vs with
  | nil => intro m _; rfl
  | cons v vs ih =>
    intro m hm
    by_cases hv : strLeb start v = true
    · simp only [maxFold, List.foldl_cons, List.filter_cons, hv, if_pos]
      have hm' : start ≤ if strLtb m v then v else m :=
        le_trans hm (step_le m v)
      exact ih _ hm'
    · have hvlt : v < start := strLeb_eq_false_iff start v |>.mp
        (Bool.not_eq_true _ ▸ (by simpa using hv))
      have hmv : strLtb m v = false := by
        rw [strLtb_eq_false_iff]
        exact le_of_lt (lt_of_lt_of_le hvlt hm)
      simp only [maxFold, List.foldl_cons, List.filter_cons, hv, hmv]
      simp only [Bool.false_eq_true, if_false]
      exact ih _ hm

/-! ## Lemmas about the store -/

theorem lookupAssoc_setAssoc {α : Type} (xs : List (List String × α))
    (k : List String) (v : α) : lookupAssoc (setAssoc xs k v) k = some v := by
  simp [lookupAssoc, setAssoc, List.find?]

theorem lookupAssoc_filter_head {α : Type} (xs : List (List String × α))
    (sid : String) (k : List String) (hk : k.head? = some sid) :
    lookupAssoc (xs.filter (fun p => p.1.head? ≠ some sid)) k = none := by
  induction xs with
  | nil => rfl
  | cons x xs ih =>
    by_cases hx : x.1.head? = some sid
    · rw [List.filter_cons, if_neg (by simp [hx])]
      exact ih
    · have hne : (x.1 == k) = false := by
        by_cases he : x.1 = k
        · subst he; exact absurd hk hx
        · exact beq_eq_false_iff_ne.mpr he
      rw [List.filter_cons, if_pos (by simp [hx])]
      unfold lookupAssoc
      rw [List.find?_cons_of_neg _ (by simp [hne])]
      exact ih

/-! ## Lemmas about traces -/

theorem bookmarks_eq_of_no_setBookmark (tr : List Effect) :
    ∀ st : TapState, hasSetBookmark tr = false →
    (applyTrace st tr).bookmarks = st.bookmarks := by
  induction tr with
  | nil => intro st _; rfl
  | cons e tr ih =>
    intro st h
    simp only [hasSetBookmark, List.any_cons, Bool.or_eq_false_iff] at h
    have : (applyEffect st e).bookmarks = st.bookmarks := by
      cases e <;> simp_all [applyEffect, isSetBookmark]
    rw [applyTrace, List.foldl_cons, ← applyTrace]
    rw [ih (applyEffect st e) (by simp [hasSetBookmark, h.2]), this]

theorem committedBookmark_cons (e : Effect) (tr : List Effect)
    (k : List String) (h : isSetBookmark e = false) :
    committedBookmark (e :: tr) k = committedBookmark tr k := by
  cases e <;> simp_all [committedBookmark, isSetBookmark]

theorem committedBookmark_append_left (tr1 tr2 : List Effect)
    (k : List String) (h : hasSetBookmark tr1 = false) :
    committedBookmark (tr1 ++ tr2) k = committedBookmark tr2 k := by
  induction tr1 with
  | nil => rfl
  | cons e tr1 ih =>
    simp only [hasSetBookmark, List.any_cons, Bool.or_eq_false_iff] at h
    rw [List.cons_append, committedBookmark_cons e _ k h.1]
    exact ih (by simp [hasSetBookmark, h.2])

/-! ## Characterization of the paginated sync loop -/

/-- Every transformed record of every page carries a string-valued bookmark
field — exactly the condition under which a basic paginated sync does not
raise a lookup/type error. -/
def pagesOk (ctx : Ctx) (sid bkey : String) (pages : List Page) : Bool :=
  pages.all (fun p => (xformPage ctx sid p).all (fun r => hasStrKey r bkey))

/-- The records of a page that pass the `rec[bookmark_key] >= start_date`
filter. -/
def emittedOfPage (ctx : Ctx) (sid bkey start : String) (p : Page) :
    List Record :=
  (xformPage ctx sid p).filter (fun r => strLeb start (getStrD r bkey))

/-- The bookmark-field values of all transformed records of a page,
including the ones filtered out as too old. -/
def pageVals (ctx : Ctx) (sid bkey : String) (p : Page) : List String :=
  (xformPage ctx sid p).map (fun r => getStrD r bkey)

def allVals (ctx : Ctx) (sid bkey : String) (pages : List Page) :
    List String :=
  (pages.map (pageVals ctx sid bkey)).flatten

/-- The effects of one successfully processed page, in program order. -/
def pageBlock (ctx : Ctx) (sid bkey start : String) (req : Request)
    (p : Page) : List Effect :=
  [.fetchPage sid req,
   .writeRecords sid (emittedOfPage ctx sid bkey start p),
   .setOffset [sid, "skip"] p.next_skip,
   .writeState]

theorem paginatedSyncLoop_ok_char (ctx : Ctx) (sid bkey : String)
    (req : Request) (pages : List Page) :
    ∀ start maxB, pagesOk ctx sid bkey pages = true →
    paginatedSyncLoop ctx sid bkey req (pages.map Except.ok) start maxB =
      ((pages.map (pageBlock ctx sid bkey start req)).flatten ++
        [.clearOffsets sid,
         .setBookmark (bookmarkKey sid)
           (maxFold maxB (allVals ctx sid bkey pages)),
         .writeState], true) := by
  induction pages with
  | nil =>
    intro start maxB _
    simp [paginatedSyncLoop, allVals, maxFold]
  | cons p ps ih =>
    intro start maxB h
    simp only [pagesOk, List.all_cons, Bool.and_eq_true] at h
    simp only [List.map_cons]
    unfold paginatedSyncLoop
    dsimp only
    rw [show FORMATTERS_get ctx sid (format_dts ctx sid p.records) =
          xformPage ctx sid p from rfl]
    rw [filterToWrite_ok (xformPage ctx sid p) bkey start h.1]
    rw [new_max_bookmark_ok (xformPage ctx sid p) bkey maxB h.1]
    have hps : pagesOk ctx sid bkey ps = true := by
      simp [pagesOk, h.2]
    dsimp only
    rw [show List.map (fun r => getStrD r bkey) (xformPage ctx sid p) =
          pageVals ctx sid bkey p from rfl]
    rw [ih start (maxFold maxB (pageVals ctx sid bkey p)) hps]
    rw [show allVals ctx sid bkey (p :: ps) =
          pageVals ctx sid bkey p ++ allVals ctx sid bkey ps by
        simp [allVals]]
    rw [maxFold_append]
    simp [pageBlock, emittedOfPage]

theorem paginatedSyncLoop_false_no_setBookmark (ctx : Ctx) (sid bkey : String)
    (req : Request) :
    ∀ (prs : List (Except Unit Page)) start maxB,
    (paginatedSyncLoop ctx sid bkey req prs start maxB).2 = false →
    hasSetBookmark (paginatedSyncLoop ctx sid bkey req prs start maxB).1
      = false := by
  intro prs
  induction prs with
  | nil =>
    intro start maxB h
    simp [paginatedSyncLoop] at h
  | cons pr rest ih =>
    intro start maxB h
    cases pr with
    | error e =>
      simp [paginatedSyncLoop, hasSetBookmark, isSetBookmark]
    | ok page =>
      unfold paginatedSyncLoop at h ⊢
      dsimp only at h ⊢
      cases hf : filterToWrite
          (FORMATTERS_get ctx sid (format_dts ctx sid page.records)) bkey
          start with
      | error e =>
        simp [hf, hasSetBookmark, isSetBookmark]
      | ok tw =>
        rw [hf] at h
        cases hm : new_max_bookmark maxB
            (FORMATTERS_get ctx sid (format_dts ctx sid page.records))
            bkey with
        | error e =>
          simp [hm, hasSetBookmark, isSetBookmark]
        | ok maxB' =>
          rw [hm] at h
          dsimp only at h ⊢
          simp only [hasSetBookmark, List.any_cons, isSetBookmark,
            Bool.false_or]
          exact ih start maxB' h

theorem new_max_bookmark_ge (recs : List Record) (k : String) :
    ∀ m b, new_max_bookmark m recs k = .ok b → m ≤ b := by
  induction recs with
  | nil =>
    intro m b h
    cases h
    exact le_refl m
  | cons r rs ih =>
    intro m b h
    unfold new_max_bookmark at h
    cases hg : getStr r k with
    | error e => rw [hg] at h; exact absurd h (by simp [Bind.bind, Except.bind])
    | ok v =>
      rw [hg] at h
      simp only [Bind.bind, Except.bind] at h
      exact le_trans (step_le m v) (ih _ b h)

theorem paginatedSyncLoop_ok_committed_ge (ctx : Ctx) (sid bkey : String)
    (req : Request) :
    ∀ (prs : List (Except Unit Page)) start maxB tr,
    paginatedSyncLoop ctx sid bkey req prs start maxB = (tr, true) →
    ∃ b, committedBookmark tr (bookmarkKey sid) = some b ∧ maxB ≤ b := by
  intro prs
  induction prs with
  | nil =>
    intro start maxB tr h
    cases h
    refine ⟨maxB, ?_, le_refl maxB⟩
    simp [committedBookmark, List.filterMap]
  | cons pr rest ih =>
    intro start maxB tr h
    cases pr with
    | error e => cases h
    | ok page =>
      unfold paginatedSyncLoop at h
      dsimp only at h
      cases hf : filterToWrite
          (FORMATTERS_get ctx sid (format_dts ctx sid page.records)) bkey
          start with
      | error e => rw [hf] at h; cases h
      | ok tw =>
        rw [hf] at h
        cases hm : new_max_bookmark maxB
            (FORMATTERS_get ctx sid (format_dts ctx sid page.records))
            bkey with
        | error e => rw [hm] at h; cases h
        | ok maxB' =>
          rw [hm] at h
          simp only at h
          cases hl : paginatedSyncLoop ctx sid bkey req rest start maxB' with
          | mk tr' ok' =>
            rw [hl] at h
            simp only at h
            cases h
            obtain ⟨b, hb, hle⟩ := ih start maxB' tr' hl
            refine ⟨b, ?_, le_trans (new_max_bookmark_ge _ _ _ _ hm) hle⟩
            rw [committedBookmark_cons (Effect.fetchPage sid req) _ _ rfl,
                committedBookmark_cons (Effect.writeRecords sid tw) _ _ rfl,
                committedBookmark_cons
                  (Effect.setOffset [sid, "skip"] page.next_skip) _ _ rfl,
                committedBookmark_cons Effect.writeState _ _ rfl]
            exact hb

/-! ## Lemmas about the event-log cursor loop -/

theorem create_request_event_log (ps : List (String × String)) :
    create_request IDS_EVENT_LOG ps = some (Request.mk "/event/" ps) := rfl

/-- The function `sync_event_log` never flushes: no branch of the cursor loop emits a
`write_state` effect. -/
theorem syncEventLogLoop_no_writeState (ctx : Ctx) (fs : String)
    (now : PDateTime) :
    ∀ (responses : List (Except Unit Record)) cursor maxB,
    countWriteState (syncEventLogLoop ctx fs now responses cursor maxB).1
      = 0 := by
  intro responses
  induction responses with
  | nil =>
    intro cursor maxB
    unfold syncEventLogLoop
    rw [create_request_event_log]
    simp [countWriteState, isWriteState]
  | cons resp? rest ih =>
    intro cursor maxB
    unfold syncEventLogLoop
    rw [create_request_event_log]
    dsimp only
    cases resp? with
    | error e => simp [countWriteState, isWriteState]
    | ok resp =>
      dsimp only
      cases hd : resp.get? "data" with
      | none => simp [countWriteState, isWriteState]
      | some d =>
        dsimp only
        cases hdf : d.falsy with
        | true =>
          simp [countWriteState, isWriteState, eventLogCommit]
        | false =>
          simp only [Bool.false_eq_true, if_false]
          cases d with
          | arr xs =>
            dsimp only
            cases hrv : recordsOfValues xs with
            | none => simp [countWriteState, isWriteState]
            | some recs =>
              dsimp only
              cases hde : dumpEvents (format_dts ctx IDS_EVENT_LOG recs) with
              | error e => simp [countWriteState, isWriteState]
              | ok events2 =>
                dsimp only
                cases hm : new_max_bookmark maxB events2 "date_updated" with
                | error e => simp [countWriteState, isWriteState]
                | ok maxB2 =>
                  dsimp only
                  cases hc : resp.get? "cursor_next" with
                  | none => simp [countWriteState, isWriteState]
                  | some cv =>
                    dsimp only
                    cases hcf : cv.falsy with
                    | true =>
                      simp [countWriteState, isWriteState, eventLogCommit]
                    | false =>
                      simp only [Bool.false_eq_true, if_false]
                      simp only [countWriteState, List.filter_cons,
                        isWriteState, Bool.false_eq_true, if_false]
                      exact ih _ _
          | null => simp [countWriteState, isWriteState]
          | bool b => cases b <;> simp [countWriteState, isWriteState]
          | num n => simp [countWriteState, isWriteState]
          | str s => simp [countWriteState, isWriteState]
          | obj fields => simp [countWriteState, isWriteState]

/-- An event-log run that does not complete never reaches `set_bookmark`. -/
theorem syncEventLogLoop_false_no_setBookmark (ctx : Ctx) (fs : String)
    (now : PDateTime) :
    ∀ (responses : List (Except Unit Record)) cursor maxB,
    (syncEventLogLoop ctx fs now responses cursor maxB).2 = false →
    hasSetBookmark (syncEventLogLoop ctx fs now responses cursor maxB).1
      = false := by
  intro responses
  induction responses with
  | nil =>
    intro cursor maxB _
    unfold syncEventLogLoop
    rw [create_request_event_log]
    simp [hasSetBookmark, isSetBookmark]
  | cons resp? rest ih =>
    intro cursor maxB h
    unfold syncEventLogLoop at h ⊢
    rw [create_request_event_log] at h ⊢
    dsimp only at h ⊢
    cases resp? with
    | error e => simp [hasSetBookmark, isSetBookmark]
    | ok resp =>
      dsimp only at h ⊢
      cases hd : resp.get? "data" with
      | none => simp [hd, hasSetBookmark, isSetBookmark]
      | some d =>
        rw [hd] at h
        dsimp only at h ⊢
        cases hdf : d.falsy with
        | true => rw [hdf] at h; simp at h
        | false =>
          rw [hdf] at h
          simp only [Bool.false_eq_true, if_false] at h ⊢
          cases d with
          | arr xs =>
            dsimp only at h ⊢
            cases hrv : recordsOfValues xs with
            | none => simp [hrv, hasSetBookmark, isSetBookmark]
            | some recs =>
              rw [hrv] at h
              dsimp only at h ⊢
              cases hde : dumpEvents (format_dts ctx IDS_EVENT_LOG recs) with
              | error e => simp [hde, hasSetBookmark, isSetBookmark]
              | ok events2 =>
                rw [hde] at h
                dsimp only at h ⊢
                cases hm : new_max_bookmark maxB events2 "date_updated" with
                | error e => simp [hm, hasSetBookmark, isSetBookmark]
                | ok maxB2 =>
                  rw [hm] at h
                  dsimp only at h ⊢
                  cases hc : resp.get? "cursor_next" with
                  | none => simp [hc, hasSetBookmark, isSetBookmark]
                  | some cv =>
                    rw [hc] at h
                    dsimp only at h ⊢
                    cases hcf : cv.falsy with
                    | true => rw [hcf] at h; simp at h
                    | false =>
                      rw [hcf] at h
                      simp only [Bool.false_eq_true, if_false] at h ⊢
                      simp only [hasSetBookmark, List.any_cons, isSetBookmark,
                        Bool.false_or]
                      exact ih _ _ h
          | null => simp [Value.falsy] at hdf
          | bool b =>
            cases b with
            | true => simp [hasSetBookmark, isSetBookmark]
            | false => simp [Value.falsy] at hdf
          | num n => dsimp only; simp [hasSetBookmark, isSetBookmark]
          | str s => dsimp only; simp [hasSetBookmark, isSetBookmark]
          | obj fields => dsimp only; simp [hasSetBookmark, isSetBookmark]

theorem writtenRecords_cons_fetch (s : String) (r : Request)
    (tr : List Effect) :
    writtenRecords (.fetchPage s r :: tr) = writtenRecords tr := by
  simp [writtenRecords, writtenPages, List.filterMap_cons]

theorem writtenRecords_cons_write (s : String) (recs : List Record)
    (tr : List Effect) :
    writtenRecords (.writeRecords s recs :: tr) = recs ++ writtenRecords tr := by
  simp [writtenRecords, writtenPages, List.filterMap_cons]

theorem writtenRecords_commit (now : PDateTime) (m : String) :
    writtenRecords (eventLogCommit now m) = [] := rfl

theorem pymin_le_left (a b : String) : pymin a b ≤ a := by
  unfold pymin
  by_cases hab : strLeb a b = true
  · rw [if_pos hab]
  · rw [if_neg hab]
    exact le_of_lt ((strLeb_eq_false_iff a b).mp (Bool.not_eq_true _ ▸ hab))

/-- On a completed event-log run the committed bookmark is the clamp
`min(now - 5 minutes, max over all written events)`, and every written
event carried a string `date_updated`. -/
theorem syncEventLogLoop_ok_commit (ctx : Ctx) (fs : String)
    (now : PDateTime) :
    ∀ (responses : List (Except Unit Record)) cursor maxB tr,
    syncEventLogLoop ctx fs now responses cursor maxB = (tr, true) →
    committedBookmark tr (bookmarkKey IDS_EVENT_LOG) =
      some (pymin (singerStrftime (subSeconds now 300))
        (maxFold maxB
          ((writtenRecords tr).map (fun r => getStrD r "date_updated")))) ∧
    (writtenRecords tr).all (fun r => hasStrKey r "date_updated") = true := by
  intro responses
  induction responses with
  | nil =>
    intro cursor maxB tr h
    unfold syncEventLogLoop at h
    rw [create_request_event_log] at h
    simp at h
  | cons resp? rest ih =>
    intro cursor maxB tr h
    unfold syncEventLogLoop at h
    rw [create_request_event_log] at h
    dsimp only at h
    cases resp? with
    | error e => simp at h
    | ok resp =>
      dsimp only at h
      cases hd : resp.get? "data" with
      | none => rw [hd] at h; simp at h
      | some d =>
        rw [hd] at h
        dsimp only at h
        cases hdf : d.falsy with
        | true =>
          rw [hdf, if_pos rfl] at h
          cases h
          constructor
          · simp [committedBookmark, eventLogCommit, writtenRecords,
              writtenPages, List.filterMap, maxFold]
          · simp [writtenRecords, writtenPages, List.filterMap, eventLogCommit]
        | false =>
          rw [hdf] at h
          simp only [Bool.false_eq_true, if_false] at h
          cases d with
          | arr xs =>
            dsimp only at h
            cases hrv : recordsOfValues xs with
            | none => rw [hrv] at h; simp at h
            | some recs =>
              rw [hrv] at h
              dsimp only at h
              cases hde : dumpEvents (format_dts ctx IDS_EVENT_LOG recs) with
              | error e => rw [hde] at h; simp at h
              | ok events2 =>
                rw [hde] at h
                dsimp only at h
                cases hm : new_max_bookmark maxB events2 "date_updated" with
                | error e => rw [hm] at h; simp at h
                | ok maxB2 =>
                  rw [hm] at h
                  dsimp only at h
                  have hall : events2.all
                      (fun r => hasStrKey r "date_updated") = true :=
                    new_max_bookmark_all_of_ok events2 "date_updated" maxB
                      maxB2 hm
                  have hmB : maxB2 = maxFold maxB
                      (events2.map (fun r => getStrD r "date_updated")) := by
                    have heq := new_max_bookmark_ok events2 "date_updated"
                      maxB hall
                    rw [heq] at hm
                    exact (Except.ok.inj hm).symm
                  cases hc : resp.get? "cursor_next" with
                  | none => rw [hc] at h; simp at h
                  | some cv =>
                    rw [hc] at h
                    dsimp only at h
                    cases hcf : cv.falsy with
                    | true =>
                      rw [hcf, if_pos rfl] at h
                      cases h
                      constructor
                      · rw [committedBookmark_cons
                            (Effect.fetchPage IDS_EVENT_LOG _) _ _ rfl,
                          committedBookmark_cons
                            (Effect.writeRecords IDS_EVENT_LOG events2) _ _
                            rfl]
                        rw [writtenRecords_cons_fetch,
                          writtenRecords_cons_write, writtenRecords_commit,
                          List.append_nil, ← hmB]
                        simp [committedBookmark, eventLogCommit,
                          List.filterMap]
                      · rw [writtenRecords_cons_fetch,
                          writtenRecords_cons_write, writtenRecords_commit,
                          List.append_nil]
                        exact hall
                    | false =>
                      rw [hcf] at h
                      simp only [Bool.false_eq_true, if_false] at h
                      cases hl : syncEventLogLoop ctx fs now rest
                          (some (cursorParamStr cv)) maxB2 with
                      | mk tr' ok' =>
                        rw [hl] at h
                        dsimp only at h
                        cases h
                        obtain ⟨ihc, iha⟩ := ih _ _ _ hl
                        constructor
                        · rw [committedBookmark_cons
                              (Effect.fetchPage IDS_EVENT_LOG _) _ _ rfl,
                            committedBookmark_cons
                              (Effect.writeRecords IDS_EVENT_LOG events2) _ _
                              rfl]
                          rw [ihc]
                          rw [writtenRecords_cons_fetch,
                            writtenRecords_cons_write, List.map_append]
                          rw [maxFold_append, ← hmB]
                        · rw [writtenRecords_cons_fetch,
                            writtenRecords_cons_write, List.all_append]
                          rw [hall, iha]
                          rfl
          | null => simp [Value.falsy] at hdf
          | bool b =>
            cases b with
            | true => dsimp only at h; simp at h
            | false => simp [Value.falsy] at hdf
          | num n => dsimp only at h; simp at h
          | str s => dsimp only at h; simp at h
          | obj fields => dsimp only at h; simp at h

/-- Every page request of a basic paginated sync carries the one request
descriptor built before the loop (the skip offset is threaded inside the
transport's paginate, not in the descriptor). -/
theorem paginatedSyncLoop_fetchReqs (ctx : Ctx) (sid bkey : String)
    (req : Request) :
    ∀ (prs : List (Except Unit Page)) start maxB r,
    r ∈ fetchReqs (paginatedSyncLoop ctx sid bkey req prs start maxB).1 →
    r = req := by
  intro prs
  induction prs with
  | nil =>
    intro start maxB r hr
    unfold paginatedSyncLoop at hr
    simp [fetchReqs, List.filterMap] at hr
  | cons pr rest ih =>
    intro start maxB r hr
    cases pr with
    | error e =>
      unfold paginatedSyncLoop at hr
      simp [fetchReqs, List.filterMap] at hr
      exact hr
    | ok page =>
      unfold paginatedSyncLoop at hr
      dsimp only at hr
      cases hf : filterToWrite
          (FORMATTERS_get ctx sid (format_dts ctx sid page.records)) bkey
          start with
      | error e =>
        rw [hf] at hr
        simp [fetchReqs, List.filterMap] at hr
        exact hr
      | ok tw =>
        rw [hf] at hr
        cases hm : new_max_bookmark maxB
            (FORMATTERS_get ctx sid (format_dts ctx sid page.records))
            bkey with
        | error e =>
          rw [hm] at hr
          simp [fetchReqs, List.filterMap] at hr
          exact hr
        | ok maxB2 =>
          rw [hm] at hr
          simp only [fetchReqs, List.filterMap_cons] at hr
          rw [List.mem_cons] at hr
          cases hr with
          | inl hr => exact hr
          | inr hr => exact ih start maxB2 r (by simpa [fetchReqs] using hr)

/-- Every event-log iteration starts by fetching with the params in hand:
the filter from the parsed start date plus the current cursor. -/
theorem syncEventLogLoop_head_fetch (ctx : Ctx) (fs : String)
    (now : PDateTime) :
    ∀ (responses : List (Except Unit Record)) cursor maxB,
    (syncEventLogLoop ctx fs now responses cursor maxB).1.head? =
      some (.fetchPage IDS_EVENT_LOG
        (Request.mk "/event/" (eventLogParams fs cursor))) := by
  intro responses
  cases responses with
  | nil =>
    intro cursor maxB
    unfold syncEventLogLoop
    rw [create_request_event_log]
    rfl
  | cons resp? rest =>
    intro cursor maxB
    unfold syncEventLogLoop
    rw [create_request_event_log]
    dsimp only
    cases resp? with
    | error e => rfl
    | ok resp =>
      dsimp only
      cases hd : resp.get? "data" with
      | none => rfl
      | some d =>
        dsimp only
        cases hdf : d.falsy with
        | true => rw [if_pos rfl]; rfl
        | false =>
          simp only [Bool.false_eq_true, if_false]
          cases d with
          | arr xs =>
            dsimp only
            cases hrv : recordsOfValues xs with
            | none => rfl
            | some recs =>
              dsimp only
              cases hde : dumpEvents (format_dts ctx IDS_EVENT_LOG recs) with
              | error e => rfl
              | ok events2 =>
                dsimp only
                cases hm : new_max_bookmark maxB events2 "date_updated" with
                | error e => rfl
                | ok maxB2 =>
                  dsimp only
                  cases hc : resp.get? "cursor_next" with
                  | none => rfl
                  | some cv =>
                    dsimp only
                    cases hcf : cv.falsy with
                    | true => rw [if_pos rfl]; rfl
                    | false =>
                      simp only [Bool.false_eq_true, if_false]
                      rfl
          | null => simp [Value.falsy] at hdf
          | bool b =>
            cases b with
            | true => rfl
            | false => simp [Value.falsy] at hdf
          | num n => rfl
          | str s => rfl
          | obj fields => rfl

/-- After the first request, each event-log request carries exactly the
`cursor_next` value of the immediately preceding response as its `_cursor`
parameter. -/
theorem syncEventLogLoop_fetch_succ (ctx : Ctx) (fs : String)
    (now : PDateTime) :
    ∀ (responses : List (Except Unit Record)) cursor maxB n r,
    (fetchReqs (syncEventLogLoop ctx fs now responses cursor maxB).1)[n+1]? =
      some r →
    ∃ resp cv, responses[n]? = some (Except.ok resp) ∧
      resp.get? "cursor_next" = some cv ∧ cv.falsy = false ∧
      r = Request.mk "/event/"
        (eventLogParams fs (some (cursorParamStr cv))) := by
  intro responses
  induction responses with
  | nil =>
    intro cursor maxB n r hr
    unfold syncEventLogLoop at hr
    rw [create_request_event_log] at hr
    simp [fetchReqs, List.filterMap] at hr
  | cons resp? rest ih =>
    intro cursor maxB n r hr
    unfold syncEventLogLoop at hr
    rw [create_request_event_log] at hr
    dsimp only at hr
    cases resp? with
    | error e => simp [fetchReqs, List.filterMap] at hr
    | ok resp =>
      dsimp only at hr
      cases hd : resp.get? "data" with
      | none => rw [hd] at hr; simp [fetchReqs, List.filterMap] at hr
      | some d =>
        rw [hd] at hr
        dsimp only at hr
        cases hdf : d.falsy with
        | true =>
          rw [hdf, if_pos rfl] at hr
          simp [fetchReqs, List.filterMap, eventLogCommit] at hr
        | false =>
          rw [hdf] at hr
          simp only [Bool.false_eq_true, if_false] at hr
          cases d with
          | arr xs =>
            dsimp only at hr
            cases hrv : recordsOfValues xs with
            | none => rw [hrv] at hr; simp [fetchReqs, List.filterMap] at hr
            | some recs =>
              rw [hrv] at hr
              dsimp only at hr
              cases hde : dumpEvents (format_dts ctx IDS_EVENT_LOG recs) with
              | error e =>
                rw [hde] at hr
                simp [fetchReqs, List.filterMap] at hr
              | ok events2 =>
                rw [hde] at hr
                dsimp only at hr
                cases hm : new_max_bookmark maxB events2 "date_updated" with
                | error e =>
                  rw [hm] at hr
                  simp [fetchReqs, List.filterMap] at hr
                | ok maxB2 =>
                  rw [hm] at hr
                  dsimp only at hr
                  cases hc : resp.get? "cursor_next" with
                  | none =>
                    rw [hc] at hr
                    simp [fetchReqs, List.filterMap] at hr
                  | some cv =>
                    rw [hc] at hr
                    dsimp only at hr
                    cases hcf : cv.falsy with
                    | true =>
                      rw [hcf, if_pos rfl] at hr
                      simp [fetchReqs, List.filterMap, eventLogCommit] at hr
                    | false =>
                      rw [hcf] at hr
                      simp only [Bool.false_eq_true, if_false] at hr
                      simp only [fetchReqs, List.filterMap_cons] at hr
                      rw [List.getElem?_cons_succ] at hr
                      cases n with
                      | zero =>
                        have hhead := syncEventLogLoop_head_fetch ctx fs now
                          rest (some (cursorParamStr cv)) maxB2
                        cases htr : (syncEventLogLoop ctx fs now rest
                            (some (cursorParamStr cv)) maxB2).1 with
                        | nil => rw [htr] at hhead; simp at hhead
                        | cons e0 tl =>
                          rw [htr] at hhead hr
                          simp only [List.head?_cons] at hhead
                          cases hhead
                          simp only [List.filterMap_cons] at hr
                          rw [List.getElem?_cons_zero] at hr
                          refine ⟨resp, cv, ?_, hc, hcf, ?_⟩
                          · rw [List.getElem?_cons_zero]
                          · exact (Option.some.inj hr).symm
                      | succ m =>
                        obtain ⟨resp', cv', hresp, hcurs, hfal, hreq⟩ :=
                          ih (some (cursorParamStr cv)) maxB2 m r
                            (by simpa [fetchReqs] using hr)
                        exact ⟨resp', cv', by simpa using hresp, hcurs, hfal,
                          hreq⟩
          | null => simp [Value.falsy] at hdf
          | bool b =>
            cases b with
            | true => simp [fetchReqs, List.filterMap] at hr
            | false => simp [Value.falsy] at hdf
          | num n' => simp [fetchReqs, List.filterMap] at hr
          | str s => simp [fetchReqs, List.filterMap] at hr
          | obj fields => simp [fetchReqs, List.filterMap] at hr

/-! ## Further trace decomposition lemmas -/

theorem applyTrace_append (st : TapState) (t1 t2 : List Effect) :
    applyTrace st (t1 ++ t2) = applyTrace (applyTrace st t1) t2 := by
  unfold applyTrace
  rw [List.foldl_append]

theorem writtenPages_append (t1 t2 : List Effect) :
    writtenPages (t1 ++ t2) = writtenPages t1 ++ writtenPages t2 := by
  unfold writtenPages
  rw [List.filterMap_append]

theorem committedBookmark_append_right (t1 t2 : List Effect)
    (k : List String) (v : String) (h : committedBookmark t2 k = some v) :
    committedBookmark (t1 ++ t2) k = some v := by
  unfold committedBookmark at h ⊢
  rw [List.filterMap_append, List.getLast?_append_of_ne_nil]
  · exact h
  · intro hnil
    rw [hnil] at h
    simp at h

theorem hasSetBookmark_append (t1 t2 : List Effect) :
    hasSetBookmark (t1 ++ t2) = (hasSetBookmark t1 || hasSetBookmark t2) := by
  unfold hasSetBookmark
  rw [List.any_append]

theorem hasSetBookmark_pageBlock (ctx : Ctx) (sid bkey start : String)
    (req : Request) (p : Page) :
    hasSetBookmark (pageBlock ctx sid bkey start req p) = false := by
  simp [pageBlock, hasSetBookmark, isSetBookmark]

theorem hasSetBookmark_blocks (ctx : Ctx) (sid bkey start : String)
    (req : Request) (pages : List Page) :
    hasSetBookmark
      ((pages.map (pageBlock ctx sid bkey start req)).flatten) = false := by
  induction pages with
  | nil => rfl
  | cons p ps ih =>
    rw [List.map_cons, List.flatten_cons, hasSetBookmark_append,
      hasSetBookmark_pageBlock, ih]
    rfl

theorem writtenPages_pageBlock (ctx : Ctx) (sid bkey start : String)
    (req : Request) (p : Page) :
    writtenPages (pageBlock ctx sid bkey start req p) =
      [emittedOfPage ctx sid bkey start p] := by
  simp [pageBlock, writtenPages, List.filterMap]

theorem writtenPages_blocks (ctx : Ctx) (sid bkey start : String)
    (req : Request) (pages : List Page) :
    writtenPages ((pages.map (pageBlock ctx sid bkey start req)).flatten) =
      pages.map (emittedOfPage ctx sid bkey start) := by
  induction pages with
  | nil => rfl
  | cons p ps ih =>
    rw [List.map_cons, List.flatten_cons, writtenPages_append,
      writtenPages_pageBlock, ih, List.map_cons]
    rfl

/-- A basic paginated sync whose transformed records are not all
well-formed does not complete. -/
theorem paginatedSyncLoop_false_of_badPage (ctx : Ctx) (sid bkey : String)
    (req : Request) (pages : List Page) :
    ∀ start maxB, pagesOk ctx sid bkey pages = false →
    (paginatedSyncLoop ctx sid bkey req (pages.map Except.ok) start maxB).2
      = false := by
  induction pages with
  | nil =>
    intro start maxB h
    simp [pagesOk] at h
  | cons p ps ih =>
    intro start maxB h
    simp only [List.map_cons]
    unfold paginatedSyncLoop
    dsimp only
    cases hall : (xformPage ctx sid p).all (fun r => hasStrKey r bkey) with
    | false =>
      cases hf : filterToWrite
          (FORMATTERS_get ctx sid (format_dts ctx sid p.records)) bkey
          start with
      | error e => rfl
      | ok tw =>
        have := filterToWrite_all_of_ok _ _ _ _ hf
        rw [show FORMATTERS_get ctx sid (format_dts ctx sid p.records) =
              xformPage ctx sid p from rfl] at this
        rw [this] at hall
        cases hall
    | true =>
      have hps : pagesOk ctx sid bkey ps = false := by
        simp only [pagesOk, List.all_cons, hall, Bool.true_and] at h
        exact h
      rw [show FORMATTERS_get ctx sid (format_dts ctx sid p.records) =
            xformPage ctx sid p from rfl]
      rw [filterToWrite_ok (xformPage ctx sid p) bkey start hall]
      rw [new_max_bookmark_ok (xformPage ctx sid p) bkey maxB hall]
      dsimp only
      exact ih start _ hps

/-- A basic paginated sync over well-delivered pages completes only if every
transformed record of every page carries its bookmark field. -/
theorem pagesOk_of_loop_ok (ctx : Ctx) (sid bkey : String) (req : Request)
    (pages : List Page) :
    ∀ start maxB,
    (paginatedSyncLoop ctx sid bkey req (pages.map Except.ok) start maxB).2
      = true →
    pagesOk ctx sid bkey pages = true := by
  intro start maxB h
  cases hp : pagesOk ctx sid bkey pages with
  | true => rfl
  | false =>
    rw [paginatedSyncLoop_false_of_badPage ctx sid bkey req pages start maxB
      hp] at h
    cases h

/-- The possible seeding effects of `update_start_date_bookmark`. -/
theorem update_start_snd (st : TapState) (key : List String)
    (defaultStart : String) :
    (update_start_date_bookmark st key defaultStart).2 = [] ∨
    (update_start_date_bookmark st key defaultStart).2 =
      [Effect.setBookmark key defaultStart] := by
  unfold update_start_date_bookmark
  cases lookupAssoc st.bookmarks key with
  | none => right; rfl
  | some v => left; rfl

theorem writtenRecords_append (t1 t2 : List Effect) :
    writtenRecords (t1 ++ t2) = writtenRecords t1 ++ writtenRecords t2 := by
  unfold writtenRecords
  rw [writtenPages_append, List.flatten_append]

/-! ## Record-update and event-serialization lemmas -/

theorem get?_setKey_ne (r : Record) (k k' : String) (v : Value)
    (h : k' ≠ k) : (r.setKey k v).get? k' = r.get? k' := by
  unfold Record.setKey Record.get?
  induction r with
  | nil => rfl
  | cons p ps ih =>
    rw [List.map_cons]
    by_cases hpk : p.1 = k
    · have h2 : (p.1 == k) = true := beq_iff_eq.mpr hpk
      rw [if_pos h2]
      have h4 : (p.1 == k') = false :=
        beq_eq_false_iff_ne.mpr (by rw [hpk]; exact Ne.symm h)
      simp only [List.find?_cons, h4]
      exact ih
    · have h2 : (p.1 == k) = false := beq_eq_false_iff_ne.mpr hpk
      rw [if_neg (by simp [h2])]
      by_cases hp' : p.1 = k'
      · have h1 : (p.1 == k') = true := beq_iff_eq.mpr hp'
        simp only [List.find?_cons, h1]
      · have h1 : (p.1 == k') = false := beq_eq_false_iff_ne.mpr hp'
        simp only [List.find?_cons, h1]
        exact ih

theorem dumpEventPayload_error_of_missing (e : Record)
    (h : e.get? "data" = none ∨ e.get? "previous_data" = none) :
    dumpEventPayload e = .error () := by
  unfold dumpEventPayload
  cases hd : e.get? "data" with
  | none => rfl
  | some vd =>
    cases h with
    | inl h => rw [h] at hd; cases hd
    | inr h =>
      simp only [Bind.bind, Except.bind]
      rw [get?_setKey_ne e "data" "previous_data" _ (by decide), h]

theorem dumpEventPayload_ok_date (e e' : Record)
    (h : dumpEventPayload e = .ok e') :
    e'.get? "date_updated" = e.get? "date_updated" := by
  unfold dumpEventPayload at h
  cases hd : e.get? "data" with
  | none => rw [hd] at h; exact absurd h (by simp [Bind.bind, Except.bind])
  | some vd =>
    rw [hd] at h
    simp only [Bind.bind, Except.bind] at h
    cases hp : (e.setKey "data" (Value.str (jsonDumps vd))).get?
        "previous_data" with
    | none => rw [hp] at h; exact absurd h (by simp)
    | some vp =>
      rw [hp] at h
      simp only at h
      cases h
      rw [get?_setKey_ne _ "previous_data" "date_updated" _ (by decide),
        get?_setKey_ne _ "data" "date_updated" _ (by decide)]

theorem dumpEvents_error_of_missing (events : List Record) (e : Record)
    (he : e ∈ events)
    (h : e.get? "data" = none ∨ e.get? "previous_data" = none) :
    dumpEvents events = .error () := by
  induction events with
  | nil => cases he
  | cons e0 es ih =>
    unfold dumpEvents
    cases hd0 : dumpEventPayload e0 with
    | error u => rfl
    | ok e0' =>
      rw [List.mem_cons] at he
      cases he with
      | inl he =>
        subst he
        rw [dumpEventPayload_error_of_missing e h] at hd0
        cases hd0
      | inr he =>
        simp only [Bind.bind, Except.bind]
        rw [ih he]

theorem dumpEvents_bad_date (events : List Record) :
    ∀ evs', dumpEvents events = .ok evs' →
    ∀ e ∈ events, hasStrKey e "date_updated" = false →
    ∃ e' ∈ evs', hasStrKey e' "date_updated" = false := by
  induction events with
  | nil => intro evs' _ e he; cases he
  | cons e0 es ih =>
    intro evs' h e he hbad
    unfold dumpEvents at h
    cases hd0 : dumpEventPayload e0 with
    | error u => rw [hd0] at h; exact absurd h (by simp [Bind.bind, Except.bind])
    | ok e0' =>
      rw [hd0] at h
      cases hrest : dumpEvents es with
      | error u =>
        rw [hrest] at h
        exact absurd h (by simp [Bind.bind, Except.bind])
      | ok es' =>
        rw [hrest] at h
        simp only [Bind.bind, Except.bind] at h
        cases h
        rw [List.mem_cons] at he
        cases he with
        | inl he =>
          subst he
          refine ⟨e0', List.mem_cons_self _ _, ?_⟩
          unfold hasStrKey at hbad ⊢
          rw [dumpEventPayload_ok_date e e0' hd0]
          exact hbad
        | inr he =>
          obtain ⟨e', he', hb'⟩ := ih es' hrest e he hbad
          exact ⟨e', List.mem_cons_of_mem _ he', hb'⟩

/-- Lists and mapping between record lists and value lists for filters. -/
theorem map_filter_getStrD (recs : List Record) (k start : String) :
    (recs.filter (fun r => strLeb start (getStrD r k))).map
        (fun r => getStrD r k) =
      (recs.map (fun r => getStrD r k)).filter (fun v => strLeb start v) := by
  induction recs with
  | nil => rfl
  | cons r rs ih =>
    cases hp : strLeb start (getStrD r k) with
    | true => simp [List.filter_cons, hp, ih]
    | false => simp [List.filter_cons, hp, ih]

theorem filter_flatten_lists {α : Type} (p : α → Bool) (ls : List (List α)) :
    ls.flatten.filter p = (ls.map (fun l => l.filter p)).flatten := by
  induction ls with
  | nil => rfl
  | cons l ls ih =>
    rw [List.flatten_cons, List.filter_append, ih, List.map_cons,
      List.flatten_cons]

/-! ## Concrete fixtures for witnesses and counterexamples -/

/-- A context whose transform collaborators are the identity (legal, since
the transforms are external and arbitrary), with a 60-second activities
look-back window configured. -/
def idCtx : Ctx :=
  ⟨fun _ rs => rs, fun rs => rs, "2017-01-01T00:00:00Z", some 60⟩

def rec1 : Record := [("date_updated", Value.str "2020-01-02T00:00:00.000000Z")]
def rec2 : Record := [("date_updated", Value.str "2019-12-31T00:00:00.000000Z")]
def pg1 : Page := ⟨[rec1, rec2], 100⟩
def pg2 : Page := ⟨[rec2], 200⟩
def start0 : String := "2020-01-01T00:00:00.000000Z"
def req0 : Request := ⟨"/task/", []⟩

/-- A store holding a prior tasks bookmark. -/
def stTasks : TapState :=
  ⟨[], [([IDS_TASKS, "date_updated"], start0)], [], []⟩

/-- A store holding a prior activities bookmark. -/
def stAct : TapState :=
  ⟨[], [([IDS_ACTIVITIES, "date_created"], "2020-01-01T00:01:00.000000Z")],
   [], []⟩

/-- An event-log event updated 2 minutes inside the 5-minute safety lag. -/
def ev1 : Record :=
  [("date_updated", Value.str "2024-01-01T11:58:00.000000Z"),
   ("data", Value.obj [("x", Value.num 1)]),
   ("previous_data", Value.obj [])]

/-- An event-log response: one event, empty (falsy) continuation cursor. -/
def resp1 : Record :=
  [("data", Value.arr [Value.obj ev1]), ("cursor_next", Value.str "")]

/-- A store holding a prior event-log bookmark. -/
def stEL : TapState :=
  ⟨[], [([IDS_EVENT_LOG, "date_updated"], "2024-01-01T10:00:00.000000Z")],
   [], []⟩

/-- The wall clock at commit time of the event-log runs. -/
def nowEL : PDateTime := ⟨2024, 1, 1, 12, 0, 0, 0⟩

/-! ## The claims -/

/-- C1: In the basic paginated sync (variants a-c), for every page the set
of emitted records is exactly the transformed records whose bookmark field
is `>=` the start watermark (`emittedOfPage`, i.e. the `strLeb`-filter of
the transformed page), while the running maximum bookmark is folded over
the bookmark values of *all* transformed records of every page
(`allVals`), including records filtered out as too old. -/
theorem C1_paginated_filter_and_max (ctx : Ctx) (sid bkey : String)
    (req : Request) (start : String) (pages : List Page)
    (hb : BOOK_KEYS sid = some bkey)
    (hok : (paginated_sync ctx sid req start (pages.map Except.ok)).2
      = true) :
    writtenPages (paginated_sync ctx sid req start (pages.map Except.ok)).1
      = pages.map (emittedOfPage ctx sid bkey start) ∧
    committedBookmark
        (paginated_sync ctx sid req start (pages.map Except.ok)).1
        (bookmarkKey sid)
      = some (maxFold start (allVals ctx sid bkey pages)) := by
  unfold paginated_sync at hok ⊢
  rw [hb] at hok ⊢
  dsimp only at hok ⊢
  have hpok := pagesOk_of_loop_ok ctx sid bkey req pages start start hok
  rw [paginatedSyncLoop_ok_char ctx sid bkey req pages start start hpok]
  constructor
  · rw [writtenPages_append, writtenPages_blocks]
    rw [show writtenPages [Effect.clearOffsets sid,
          Effect.setBookmark (bookmarkKey sid)
            (maxFold start (allVals ctx sid bkey pages)),
          Effect.writeState] = [] from rfl]
    rw [List.append_nil]
  · rw [committedBookmark_append_left _ _ _
      (hasSetBookmark_blocks ctx sid bkey start req pages)]
    simp [committedBookmark, List.filterMap]

theorem C1_witness :
    writtenPages (paginated_sync idCtx IDS_TASKS req0 start0
        ([pg1, pg2].map Except.ok)).1
      = [pg1, pg2].map (emittedOfPage idCtx IDS_TASKS "date_updated" start0) ∧
    committedBookmark (paginated_sync idCtx IDS_TASKS req0 start0
        ([pg1, pg2].map Except.ok)).1 (bookmarkKey IDS_TASKS)
      = some (maxFold start0 (allVals idCtx IDS_TASKS "date_updated"
          [pg1, pg2])) :=
  C1_paginated_filter_and_max idCtx IDS_TASKS "date_updated" req0 start0
    [pg1, pg2] (by decide) (by decide)

/-- C2: For both loop shapes (the paginated page loop of variants a-c and
the event-log cursor loop), an execution that does not complete — a
transport error or any mid-loop failure — never emits `set_bookmark`, so
the store's bookmarks are exactly what they were when the loop started. -/
theorem C2_error_preserves_bookmark :
    (∀ (ctx : Ctx) (sid bkey : String) (req : Request)
       (prs : List (Except Unit Page)) (start maxB : String) (st : TapState),
       (paginatedSyncLoop ctx sid bkey req prs start maxB).2 = false →
       hasSetBookmark (paginatedSyncLoop ctx sid bkey req prs start maxB).1
         = false ∧
       (applyTrace st
         (paginatedSyncLoop ctx sid bkey req prs start maxB).1).bookmarks
         = st.bookmarks) ∧
    (∀ (ctx : Ctx) (fs : String) (now : PDateTime)
       (responses : List (Except Unit Record)) (cursor : Option String)
       (maxB : String) (st : TapState),
       (syncEventLogLoop ctx fs now responses cursor maxB).2 = false →
       hasSetBookmark (syncEventLogLoop ctx fs now responses cursor maxB).1
         = false ∧
       (applyTrace st
         (syncEventLogLoop ctx fs now responses cursor maxB).1).bookmarks
         = st.bookmarks) := by
  constructor
  · intro ctx sid bkey req prs start maxB st h
    have hns := paginatedSyncLoop_false_no_setBookmark ctx sid bkey req prs
      start maxB h
    exact ⟨hns, bookmarks_eq_of_no_setBookmark _ st hns⟩
  · intro ctx fs now responses cursor maxB st h
    have hns := syncEventLogLoop_false_no_setBookmark ctx fs now responses
      cursor maxB h
    exact ⟨hns, bookmarks_eq_of_no_setBookmark _ st hns⟩

theorem C2_witness :
    (hasSetBookmark (paginatedSyncLoop idCtx IDS_TASKS "date_updated" req0
        [Except.error ()] start0 start0).1 = false ∧
     (applyTrace stTasks (paginatedSyncLoop idCtx IDS_TASKS "date_updated"
        req0 [Except.error ()] start0 start0).1).bookmarks
       = stTasks.bookmarks) ∧
    (hasSetBookmark (syncEventLogLoop idCtx "2024-01-01T10:00:00" nowEL
        [Except.error ()] none "2024-01-01T10:00:00.000000Z").1 = false ∧
     (applyTrace stEL (syncEventLogLoop idCtx "2024-01-01T10:00:00" nowEL
        [Except.error ()] none "2024-01-01T10:00:00.000000Z").1).bookmarks
       = stEL.bookmarks) :=
  ⟨C2_error_preserves_bookmark.1 idCtx IDS_TASKS "date_updated" req0
      [Except.error ()] start0 start0 stTasks (by decide),
   C2_error_preserves_bookmark.2 idCtx "2024-01-01T10:00:00" nowEL
      [Except.error ()] none "2024-01-01T10:00:00.000000Z" stEL (by decide)⟩

/-- C3 counterexample: a sync of the activities stream with a 60-second
look-back window and zero delivered pages completes and commits
"2020-01-01T00:00:00" — the look-back-adjusted, second-truncated start —
which is strictly below the bookmark "2020-01-01T00:01:00.000000Z" that was
in effect at sync start.  The claim "a sync of the activities stream that
emits zero records never commits a bookmark earlier than the bookmark in
effect at sync start" is therefore false on the code. -/
theorem C3_counterexample :
    (sync_activities idCtx stAct []).2 = true ∧
    committedBookmark (sync_activities idCtx stAct []).1
        (bookmarkKey IDS_ACTIVITIES) = some "2020-01-01T00:00:00" ∧
    lookupAssoc stAct.bookmarks (bookmarkKey IDS_ACTIVITIES)
      = some "2020-01-01T00:01:00.000000Z" ∧
    ("2020-01-01T00:00:00" : String) < "2020-01-01T00:01:00.000000Z" := by
  refine ⟨by decide, by decide, by decide, ?_⟩
  rw [← strLtb_iff]
  decide

/-- C3 amended: the committed bookmark of a completed `paginated_sync` run
is never below the start watermark passed to it.  For the basic and
query-filtered variants that start is the prior bookmark, so their
bookmarks are monotonically non-decreasing across successful syncs; the
activities stream, however, passes the look-back-adjusted, second-truncated
start, so its committed bookmark can be earlier than the pre-sync bookmark
(see the counterexample). -/
theorem C3_amended_monotone (ctx : Ctx) (sid : String) (req : Request)
    (start : String) (prs : List (Except Unit Page))
    (hok : (paginated_sync ctx sid req start prs).2 = true) :
    ∃ b, committedBookmark (paginated_sync ctx sid req start prs).1
        (bookmarkKey sid) = some b ∧ start ≤ b := by
  unfold paginated_sync at hok ⊢
  cases hb : BOOK_KEYS sid with
  | none => rw [hb] at hok; cases hok
  | some bkey =>
    rw [hb] at hok
    dsimp only at hok ⊢
    cases hl : paginatedSyncLoop ctx sid bkey req prs start start with
    | mk tr ok =>
      rw [hl] at hok
      dsimp only at hok ⊢
      subst hok
      obtain ⟨b, hbk, hle⟩ :=
        paginatedSyncLoop_ok_committed_ge ctx sid bkey req prs start start
          tr hl
      exact ⟨b, hbk, hle⟩

theorem C3_amended_monotone_witness :
    ∃ b, committedBookmark (paginated_sync idCtx IDS_TASKS req0 start0
        ([pg1].map Except.ok)).1 (bookmarkKey IDS_TASKS) = some b ∧
      start0 ≤ b :=
  C3_amended_monotone idCtx IDS_TASKS req0 start0 ([pg1].map Except.ok)
    (by decide)

/-- C4: For every completed event-log run the committed bookmark equals
`min(strftime(now - 5 minutes), maximum date_updated over all written
events seeded with the start watermark)`, and consequently it never exceeds
now minus five minutes, even when a processed record has a newer update
time. -/
theorem C4_event_log_clamp (ctx : Ctx) (st : TapState) (now : PDateTime)
    (responses : List (Except Unit Record))
    (hok : (sync_event_log ctx st now responses).2 = true) :
    committedBookmark (sync_event_log ctx st now responses).1
        (bookmarkKey IDS_EVENT_LOG)
      = some (pymin (singerStrftime (subSeconds now 300))
          (maxFold
            (update_start_date_bookmark st (bookmarkKey IDS_EVENT_LOG)
              ctx.config_start_date).1
            ((writtenRecords (sync_event_log ctx st now responses).1).map
              (fun r => getStrD r "date_updated")))) ∧
    (∀ b, committedBookmark (sync_event_log ctx st now responses).1
        (bookmarkKey IDS_EVENT_LOG) = some b →
      b ≤ singerStrftime (subSeconds now 300)) := by
  have hsnd := update_start_snd st (bookmarkKey IDS_EVENT_LOG)
    ctx.config_start_date
  unfold sync_event_log at hok ⊢
  cases hu : update_start_date_bookmark st (bookmarkKey IDS_EVENT_LOG)
      ctx.config_start_date with
  | mk startDate preEff =>
    rw [hu] at hok hsnd
    dsimp only at hok hsnd ⊢
    cases hp : parseIso startDate with
    | none => rw [hp] at hok; dsimp only at hok; cases hok
    | some dt =>
      rw [hp] at hok
      dsimp only at hok ⊢
      cases hl : syncEventLogLoop ctx (fmtSecond dt) now responses none
          startDate with
      | mk ltr lok =>
        rw [hl] at hok
        dsimp only at hok ⊢
        subst hok
        obtain ⟨hc, _hall⟩ := syncEventLogLoop_ok_commit ctx (fmtSecond dt)
          now responses none startDate ltr hl
        have hwr : writtenRecords (preEff ++ ltr) = writtenRecords ltr := by
          rw [writtenRecords_append]
          cases hsnd with
          | inl h0 => rw [h0]; rfl
          | inr h0 => rw [h0]; rfl
        constructor
        · rw [hwr]
          exact committedBookmark_append_right _ _ _ _ hc
        · intro b hb
          rw [committedBookmark_append_right _ _ _ _ hc] at hb
          have hbe := Option.some.inj hb
          rw [← hbe]
          exact pymin_le_left _ _

theorem C4_witness :
    committedBookmark (sync_event_log idCtx stEL nowEL [Except.ok resp1]).1
        (bookmarkKey IDS_EVENT_LOG)
      = some (pymin (singerStrftime (subSeconds nowEL 300))
          (maxFold
            (update_start_date_bookmark stEL (bookmarkKey IDS_EVENT_LOG)
              idCtx.config_start_date).1
            ((writtenRecords
              (sync_event_log idCtx stEL nowEL [Except.ok resp1]).1).map
              (fun r => getStrD r "date_updated")))) ∧
    (∀ b, committedBookmark
        (sync_event_log idCtx stEL nowEL [Except.ok resp1]).1
        (bookmarkKey IDS_EVENT_LOG) = some b →
      b ≤ singerStrftime (subSeconds nowEL 300)) :=
  C4_event_log_clamp idCtx stEL nowEL [Except.ok resp1] (by decide)

/-- C5 counterexample: an event-log run processing a record updated two
minutes inside the safety window completes with committed bookmark
`2024-01-01T11:55:00.000000Z` (now minus 5 minutes), which is neither the
maximum bookmark value among the emitted records
(`2024-01-01T11:58:00.000000Z`) nor the initial start watermark
(`2024-01-01T10:00:00.000000Z`) — so the claim, quantified over *every*
stream, fails for the event-log strategy. -/
theorem C5_counterexample :
    (sync_event_log idCtx stEL nowEL [Except.ok resp1]).2 = true ∧
    committedBookmark (sync_event_log idCtx stEL nowEL [Except.ok resp1]).1
        (bookmarkKey IDS_EVENT_LOG) = some "2024-01-01T11:55:00.000000Z" ∧
    (writtenRecords (sync_event_log idCtx stEL nowEL
        [Except.ok resp1]).1).map (fun r => getStrD r "date_updated")
      = ["2024-01-01T11:58:00.000000Z"] ∧
    ("2024-01-01T11:55:00.000000Z" : String) ≠ "2024-01-01T11:58:00.000000Z" ∧
    ("2024-01-01T11:55:00.000000Z" : String) ≠ "2024-01-01T10:00:00.000000Z"
    := by
  refine ⟨by decide, by decide, by decide, by decide, by decide⟩

/-- C5 amended: for the basic paginated strategy (variants a-c) the claim
holds — after a successful sync the stream's offsets are gone from the live
and persisted store and the persisted bookmark is the running maximum of
the emitted records' bookmark values seeded with the start watermark
(hence the start watermark itself when nothing was emitted, since every
emitted value is `>=` the start).  The event-log strategy violates the
claim: its committed bookmark is additionally clamped to now minus five
minutes (see the counterexample). -/
theorem C5_amended_paginated (ctx : Ctx) (sid bkey : String) (req : Request)
    (start : String) (pages : List Page) (st : TapState)
    (hb : BOOK_KEYS sid = some bkey)
    (hok : (paginated_sync ctx sid req start (pages.map Except.ok)).2
      = true) :
    (∀ k : List String, k.head? = some sid →
      lookupAssoc (applyTrace st (paginated_sync ctx sid req start
        (pages.map Except.ok)).1).offsets k = none ∧
      lookupAssoc (applyTrace st (paginated_sync ctx sid req start
        (pages.map Except.ok)).1).persistedOffsets k = none) ∧
    lookupAssoc (applyTrace st (paginated_sync ctx sid req start
        (pages.map Except.ok)).1).persistedBookmarks (bookmarkKey sid)
      = some (maxFold start
          ((writtenRecords (paginated_sync ctx sid req start
            (pages.map Except.ok)).1).map (fun r => getStrD r bkey))) ∧
    (∀ v ∈ (writtenRecords (paginated_sync ctx sid req start
        (pages.map Except.ok)).1).map (fun r => getStrD r bkey),
      start ≤ v) := by
  unfold paginated_sync at hok ⊢
  rw [hb] at hok ⊢
  dsimp only at hok ⊢
  have hpok := pagesOk_of_loop_ok ctx sid bkey req pages start start hok
  rw [paginatedSyncLoop_ok_char ctx sid bkey req pages start start hpok]
  dsimp only
  have hwr : writtenRecords
      ((pages.map (pageBlock ctx sid bkey start req)).flatten ++
        [Effect.clearOffsets sid,
         Effect.setBookmark (bookmarkKey sid)
           (maxFold start (allVals ctx sid bkey pages)),
         Effect.writeState])
      = (pages.map (emittedOfPage ctx sid bkey start)).flatten := by
    rw [writtenRecords_append]
    unfold writtenRecords
    rw [writtenPages_blocks]
    rw [show writtenPages [Effect.clearOffsets sid,
          Effect.setBookmark (bookmarkKey sid)
            (maxFold start (allVals ctx sid bkey pages)),
          Effect.writeState] = [] from rfl]
    rw [show ([] : List (List Record)).flatten = [] from rfl, List.append_nil]
  have hvals : ((pages.map (emittedOfPage ctx sid bkey start)).flatten).map
      (fun r => getStrD r bkey)
      = (allVals ctx sid bkey pages).filter (fun v => strLeb start v) := by
    rw [List.map_flatten, List.map_map]
    unfold allVals
    rw [filter_flatten_lists, List.map_map]
    congr 1
    apply List.map_congr_left
    intro p _
    show (emittedOfPage ctx sid bkey start p).map (fun r => getStrD r bkey)
      = (pageVals ctx sid bkey p).filter (fun v => strLeb start v)
    unfold emittedOfPage pageVals
    exact map_filter_getStrD _ _ _
  have hmaxeq : maxFold start (allVals ctx sid bkey pages)
      = maxFold start
          (((pages.map (emittedOfPage ctx sid bkey start)).flatten).map
            (fun r => getStrD r bkey)) := by
    rw [hvals]
    exact maxFold_filter start (allVals ctx sid bkey pages) start
      (le_refl start)
  rw [applyTrace_append]
  refine ⟨?_, ?_, ?_⟩
  · intro k hk
    constructor
    · simp only [applyTrace, List.foldl_cons, List.foldl_nil, applyEffect]
      exact lookupAssoc_filter_head _ sid k hk
    · simp only [applyTrace, List.foldl_cons, List.foldl_nil, applyEffect]
      exact lookupAssoc_filter_head _ sid k hk
  · simp only [applyTrace, List.foldl_cons, List.foldl_nil, applyEffect]
    rw [lookupAssoc_setAssoc, hwr, ← hmaxeq]
  · intro v hv
    rw [hwr, hvals] at hv
    rw [List.mem_filter] at hv
    exact (strLeb_iff start v).mp hv.2

theorem C5_amended_paginated_witness :
    (∀ k : List String, k.head? = some IDS_TASKS →
      lookupAssoc (applyTrace stTasks (paginated_sync idCtx IDS_TASKS req0
        start0 ([pg1, pg2].map Except.ok)).1).offsets k = none ∧
      lookupAssoc (applyTrace stTasks (paginated_sync idCtx IDS_TASKS req0
        start0 ([pg1, pg2].map Except.ok)).1).persistedOffsets k = none) ∧
    lookupAssoc (applyTrace stTasks (paginated_sync idCtx IDS_TASKS req0
        start0 ([pg1, pg2].map Except.ok)).1).persistedBookmarks
        (bookmarkKey IDS_TASKS)
      = some (maxFold start0
          ((writtenRecords (paginated_sync idCtx IDS_TASKS req0 start0
            ([pg1, pg2].map Except.ok)).1).map
            (fun r => getStrD r "date_updated"))) ∧
    (∀ v ∈ (writtenRecords (paginated_sync idCtx IDS_TASKS req0 start0
        ([pg1, pg2].map Except.ok)).1).map
        (fun r => getStrD r "date_updated"),
      start0 ≤ v) :=
  C5_amended_paginated idCtx IDS_TASKS "date_updated" req0 start0 [pg1, pg2]
    stTasks (by decide) (by decide)

theorem countWriteState_append (t1 t2 : List Effect) :
    countWriteState (t1 ++ t2) = countWriteState t1 + countWriteState t2 := by
  unfold countWriteState
  rw [List.filter_append, List.length_append]

theorem countWriteState_blocks (ctx : Ctx) (sid bkey start : String)
    (req : Request) (pages : List Page) :
    countWriteState ((pages.map (pageBlock ctx sid bkey start req)).flatten)
      = pages.length := by
  induction pages with
  | nil => rfl
  | cons p ps ih =>
    rw [List.map_cons, List.flatten_cons, countWriteState_append, ih]
    rw [show countWriteState (pageBlock ctx sid bkey start req p) = 1
      from rfl]
    rw [List.length_cons, Nat.add_comm]

/-- C6 counterexample: in a successful two-page basic sync, no
`set_bookmark` occurs before the second page is requested — after page one
only the skip offset is persisted, and a flush at that point leaves the
persisted bookmark at its pre-sync value even though the running maximum
has already advanced.  The claim that "both the updated skip offset and
the max-bookmark-so-far are persisted after every page before the next
page is requested" is therefore false on the code. -/
theorem C6_counterexample :
    (paginated_sync idCtx IDS_TASKS req0 start0
        ([pg1, pg2].map Except.ok)).2 = true ∧
    (fetchReqs (paginated_sync idCtx IDS_TASKS req0 start0
        ([pg1, pg2].map Except.ok)).1).length = 2 ∧
    hasSetBookmark (beforeNthFetch 2 (paginated_sync idCtx IDS_TASKS req0
        start0 ([pg1, pg2].map Except.ok)).1) = false ∧
    lookupAssoc (applyTrace stTasks (beforeNthFetch 2
        (paginated_sync idCtx IDS_TASKS req0 start0
          ([pg1, pg2].map Except.ok)).1)).persistedBookmarks
        (bookmarkKey IDS_TASKS) = some start0 ∧
    maxFold start0 (pageVals idCtx IDS_TASKS "date_updated" pg1)
      = "2020-01-02T00:00:00.000000Z" ∧
    start0 ≠ "2020-01-02T00:00:00.000000Z" := by
  refine ⟨by decide, by decide, by decide, by decide, by decide, by decide⟩

/-- C6 amended: after every page of a successful basic paginated sync the
updated skip offset is persisted — each page contributes the effect block
fetch, write_records, set_offset(next_skip), write_state, in that order,
before the next fetch — while the running maximum bookmark stays in memory
and is committed exactly once, by the single `set_bookmark` that follows
the final page. -/
theorem C6_amended_per_page_offset_flush (ctx : Ctx) (sid bkey : String)
    (req : Request) (start : String) (pages : List Page)
    (hb : BOOK_KEYS sid = some bkey)
    (hok : (paginated_sync ctx sid req start (pages.map Except.ok)).2
      = true) :
    (paginated_sync ctx sid req start (pages.map Except.ok)).1
      = (pages.map (pageBlock ctx sid bkey start req)).flatten ++
        [Effect.clearOffsets sid,
         Effect.setBookmark (bookmarkKey sid)
           (maxFold start (allVals ctx sid bkey pages)),
         Effect.writeState] := by
  unfold paginated_sync at hok ⊢
  rw [hb] at hok ⊢
  dsimp only at hok ⊢
  have hpok := pagesOk_of_loop_ok ctx sid bkey req pages start start hok
  rw [paginatedSyncLoop_ok_char ctx sid bkey req pages start start hpok]

theorem C6_amended_witness :
    (paginated_sync idCtx IDS_TASKS req0 start0
        ([pg1, pg2].map Except.ok)).1
      = ([pg1, pg2].map (pageBlock idCtx IDS_TASKS "date_updated" start0
          req0)).flatten ++
        [Effect.clearOffsets IDS_TASKS,
         Effect.setBookmark (bookmarkKey IDS_TASKS)
           (maxFold start0 (allVals idCtx IDS_TASKS "date_updated"
             [pg1, pg2])),
         Effect.writeState] :=
  C6_amended_per_page_offset_flush idCtx IDS_TASKS "date_updated" req0
    start0 [pg1, pg2] (by decide) (by decide)

/-- C7 counterexample: a successful event-log run that wrote a page of
records performs no `write_state` flush at all — neither after the page
nor at stream completion — refuting the claim that every strategy flushes
after each page and at completion. -/
theorem C7_counterexample :
    (sync_event_log idCtx stEL nowEL [Except.ok resp1]).2 = true ∧
    (writtenPages (sync_event_log idCtx stEL nowEL
        [Except.ok resp1]).1).length = 1 ∧
    countWriteState (sync_event_log idCtx stEL nowEL
        [Except.ok resp1]).1 = 0 := by
  refine ⟨by decide, by decide, by decide⟩

/-- C7 amended: the paginated strategies (variants a-c) flush with
`write_state` once per page plus once at completion, the flush being the
final effect; the event-log strategy never calls `write_state` itself — on
any input, completed or not, its trace contains no flush. -/
theorem C7_amended_flush_discipline :
    (∀ (ctx : Ctx) (sid bkey : String) (req : Request) (start : String)
       (pages : List Page),
       BOOK_KEYS sid = some bkey →
       (paginated_sync ctx sid req start (pages.map Except.ok)).2 = true →
       countWriteState (paginated_sync ctx sid req start
           (pages.map Except.ok)).1 = pages.length + 1 ∧
       (paginated_sync ctx sid req start
           (pages.map Except.ok)).1.getLast? = some Effect.writeState) ∧
    (∀ (ctx : Ctx) (st : TapState) (now : PDateTime)
       (responses : List (Except Unit Record)),
       countWriteState (sync_event_log ctx st now responses).1 = 0) := by
  constructor
  · intro ctx sid bkey req start pages hb hok
    unfold paginated_sync at hok ⊢
    rw [hb] at hok ⊢
    dsimp only at hok ⊢
    have hpok := pagesOk_of_loop_ok ctx sid bkey req pages start start hok
    rw [paginatedSyncLoop_ok_char ctx sid bkey req pages start start hpok]
    constructor
    · rw [countWriteState_append, countWriteState_blocks]
      rfl
    · rw [List.getLast?_append_of_ne_nil _ (by simp)]
      rfl
  · intro ctx st now responses
    have hsnd := update_start_snd st (bookmarkKey IDS_EVENT_LOG)
      ctx.config_start_date
    unfold sync_event_log
    cases hu : update_start_date_bookmark st (bookmarkKey IDS_EVENT_LOG)
        ctx.config_start_date with
    | mk startDate preEff =>
      rw [hu] at hsnd
      dsimp only at hsnd ⊢
      have hpre : countWriteState preEff = 0 := by
        cases hsnd with
        | inl h0 => rw [h0]; rfl
        | inr h0 => rw [h0]; rfl
      cases hp : parseIso startDate with
      | none => exact hpre
      | some dt =>
        dsimp only
        rw [countWriteState_append, hpre,
          syncEventLogLoop_no_writeState ctx (fmtSecond dt) now responses
            none startDate]

theorem C7_amended_witness :
    (countWriteState (paginated_sync idCtx IDS_TASKS req0 start0
        ([pg1, pg2].map Except.ok)).1 = [pg1, pg2].length + 1 ∧
     (paginated_sync idCtx IDS_TASKS req0 start0
        ([pg1, pg2].map Except.ok)).1.getLast? = some Effect.writeState) ∧
    countWriteState (sync_event_log idCtx stEL nowEL
        [Except.ok resp1]).1 = 0 :=
  ⟨C7_amended_flush_discipline.1 idCtx IDS_TASKS "date_updated" req0 start0
      [pg1, pg2] (by decide) (by decide),
   C7_amended_flush_discipline.2 idCtx stEL nowEL [Except.ok resp1]⟩

/-- C8 counterexample: an event-log response with the `data` key absent —
the claim's own example of a malformed response — makes the sync abort
(the `response["data"]` lookup raises) instead of terminating the loop
normally; no bookmark is committed. -/
theorem C8_counterexample :
    (sync_event_log idCtx stEL nowEL [Except.ok ([] : Record)]).2 = false ∧
    hasSetBookmark (sync_event_log idCtx stEL nowEL
        [Except.ok ([] : Record)]).1 = false := by
  refine ⟨by decide, by decide⟩

/-- C8 amended: a response whose `data` value is present but falsy (for
example an empty array) is treated as "no more pages" — the loop breaks,
the run completes, nothing further is written, and the (clamped) bookmark
is committed; a response with the `data` key absent instead raises an
uncaught lookup error, aborting the run with no bookmark committed. -/
theorem C8_amended_empty_vs_missing_data :
    (∀ (ctx : Ctx) (st : TapState) (now : PDateTime) (resp : Record)
       (rest : List (Except Unit Record)) (s : String) (dt : PDateTime),
       lookupAssoc st.bookmarks (bookmarkKey IDS_EVENT_LOG) = some s →
       parseIso s = some dt →
       resp.get? "data" = none →
       (sync_event_log ctx st now (Except.ok resp :: rest)).2 = false ∧
       hasSetBookmark (sync_event_log ctx st now
         (Except.ok resp :: rest)).1 = false) ∧
    (∀ (ctx : Ctx) (st : TapState) (now : PDateTime) (resp : Record)
       (rest : List (Except Unit Record)) (s : String) (dt : PDateTime)
       (d : Value),
       lookupAssoc st.bookmarks (bookmarkKey IDS_EVENT_LOG) = some s →
       parseIso s = some dt →
       resp.get? "data" = some d →
       d.falsy = true →
       (sync_event_log ctx st now (Except.ok resp :: rest)).2 = true ∧
       writtenPages (sync_event_log ctx st now
         (Except.ok resp :: rest)).1 = [] ∧
       committedBookmark (sync_event_log ctx st now
           (Except.ok resp :: rest)).1 (bookmarkKey IDS_EVENT_LOG)
         = some (pymin (singerStrftime (subSeconds now 300)) s)) := by
  constructor
  · intro ctx st now resp rest s dt hs hp hd
    unfold sync_event_log
    rw [show update_start_date_bookmark st (bookmarkKey IDS_EVENT_LOG)
          ctx.config_start_date = (s, []) from by
        unfold update_start_date_bookmark; rw [hs]]
    dsimp only
    rw [hp]
    dsimp only
    unfold syncEventLogLoop
    rw [create_request_event_log]
    dsimp only
    rw [hd]
    constructor
    · rfl
    · simp [hasSetBookmark, isSetBookmark]
  · intro ctx st now resp rest s dt d hs hp hd hdf
    unfold sync_event_log
    rw [show update_start_date_bookmark st (bookmarkKey IDS_EVENT_LOG)
          ctx.config_start_date = (s, []) from by
        unfold update_start_date_bookmark; rw [hs]]
    dsimp only
    rw [hp]
    dsimp only
    unfold syncEventLogLoop
    rw [create_request_event_log]
    dsimp only
    rw [hd]
    dsimp only
    rw [hdf, if_pos rfl]
    refine ⟨rfl, ?_, ?_⟩
    · simp [writtenPages, eventLogCommit, List.filterMap]
    · simp [committedBookmark, eventLogCommit, List.filterMap]

theorem C8_amended_witness :
    ((sync_event_log idCtx stEL nowEL [Except.ok ([("x", Value.num 1)] :
        Record)]).2 = false ∧
     hasSetBookmark (sync_event_log idCtx stEL nowEL
        [Except.ok ([("x", Value.num 1)] : Record)]).1 = false) ∧
    ((sync_event_log idCtx stEL nowEL
        [Except.ok ([("data", Value.arr [])] : Record)]).2 = true ∧
     writtenPages (sync_event_log idCtx stEL nowEL
        [Except.ok ([("data", Value.arr [])] : Record)]).1 = [] ∧
     committedBookmark (sync_event_log idCtx stEL nowEL
         [Except.ok ([("data", Value.arr [])] : Record)]).1
         (bookmarkKey IDS_EVENT_LOG)
       = some (pymin (singerStrftime (subSeconds nowEL 300))
           "2024-01-01T10:00:00.000000Z")) :=
  ⟨C8_amended_empty_vs_missing_data.1 idCtx stEL nowEL
      [("x", Value.num 1)] [] "2024-01-01T10:00:00.000000Z"
      ⟨2024, 1, 1, 10, 0, 0, 0⟩ (by decide) (by decide) rfl,
   C8_amended_empty_vs_missing_data.2 idCtx stEL nowEL
      [("data", Value.arr [])] [] "2024-01-01T10:00:00.000000Z"
      ⟨2024, 1, 1, 10, 0, 0, 0⟩ (Value.arr []) (by decide) (by decide)
      rfl rfl⟩

theorem create_request_leads (ps : List (String × String)) :
    create_request IDS_LEADS ps = some (Request.mk "/lead/" ps) := rfl

theorem create_request_activities (ps : List (String × String)) :
    create_request IDS_ACTIVITIES ps = some (Request.mk "/activity/" ps) :=
  rfl

theorem BOOK_KEYS_LEADS : BOOK_KEYS IDS_LEADS = some "date_updated" := rfl

theorem BOOK_KEYS_ACTIVITIES :
    BOOK_KEYS IDS_ACTIVITIES = some "date_created" := rfl

theorem fetchReqs_head (tr : List Effect) (s : String) (r : Request)
    (h : tr.head? = some (.fetchPage s r)) :
    (fetchReqs tr).head? = some r := by
  cases tr with
  | nil => cases h
  | cons e tl =>
    rw [List.head?_cons] at h
    cases Option.some.inj h
    simp [fetchReqs, List.filterMap_cons]

/-- C9: the three filtered strategies build their request parameters in
exactly the specified formats — the leads query string with the
minute-truncated start, the activities `date_created__gt` filter with the
look-back-adjusted second-truncated start, and the event-log
`date_updated__gte` filter with the prior response's `cursor_next` passed
as `_cursor` on every request after the first. -/
theorem C9_request_parameter_formats :
    (∀ (ctx : Ctx) (st : TapState) (pages : List (Except Unit Page))
       (s : String) (dt : PDateTime),
       lookupAssoc st.bookmarks (bookmarkKey IDS_LEADS) = some s →
       parseIso s = some dt →
       ∀ r ∈ fetchReqs (sync_leads ctx st pages).1,
         r = Request.mk "/lead/"
           [("query", "date_updated>=\"" ++ fmtMinute dt ++
             "\" sort:date_updated")]) ∧
    (∀ (ctx : Ctx) (st : TapState) (pages : List (Except Unit Page))
       (s : String) (dt : PDateTime),
       lookupAssoc st.bookmarks (bookmarkKey IDS_ACTIVITIES) = some s →
       parseIso s = some dt →
       ∀ r ∈ fetchReqs (sync_activities ctx st pages).1,
         r = Request.mk "/activity/"
           [("date_created__gt", fmtSecond (subSeconds dt
             (ctx.config_activities_window_seconds.getD 0)))]) ∧
    (∀ (ctx : Ctx) (st : TapState) (now : PDateTime)
       (responses : List (Except Unit Record)) (s : String)
       (dt : PDateTime),
       lookupAssoc st.bookmarks (bookmarkKey IDS_EVENT_LOG) = some s →
       parseIso s = some dt →
       (fetchReqs (sync_event_log ctx st now responses).1).head?
         = some (Request.mk "/event/"
             [("date_updated__gte", fmtSecond dt)]) ∧
       (∀ (n : Nat) (r : Request),
          (fetchReqs (sync_event_log ctx st now responses).1)[n+1]?
            = some r →
          ∃ resp cv, responses[n]? = some (Except.ok resp) ∧
            resp.get? "cursor_next" = some cv ∧ cv.falsy = false ∧
            r = Request.mk "/event/"
              [("date_updated__gte", fmtSecond dt),
               ("_cursor", cursorParamStr cv)])) := by
  refine ⟨?_, ?_, ?_⟩
  · intro ctx st pages s dt hs hp r hr
    unfold sync_leads at hr
    rw [show update_start_date_bookmark st (bookmarkKey IDS_LEADS)
          ctx.config_start_date = (s, []) from by
        unfold update_start_date_bookmark; rw [hs]] at hr
    dsimp only at hr
    rw [hp] at hr
    dsimp only at hr
    rw [create_request_leads] at hr
    dsimp only at hr
    rw [List.nil_append] at hr
    unfold paginated_sync at hr
    rw [BOOK_KEYS_LEADS] at hr
    dsimp only at hr
    exact paginatedSyncLoop_fetchReqs ctx IDS_LEADS "date_updated" _ pages
      s s r hr
  · intro ctx st pages s dt hs hp r hr
    unfold sync_activities at hr
    rw [show update_start_date_bookmark st (bookmarkKey IDS_ACTIVITIES)
          ctx.config_start_date = (s, []) from by
        unfold update_start_date_bookmark; rw [hs]] at hr
    dsimp only at hr
    rw [hp] at hr
    dsimp only at hr
    rw [create_request_activities] at hr
    dsimp only at hr
    rw [List.nil_append] at hr
    unfold paginated_sync at hr
    rw [BOOK_KEYS_ACTIVITIES] at hr
    dsimp only at hr
    exact paginatedSyncLoop_fetchReqs ctx IDS_ACTIVITIES "date_created" _
      pages _ _ r hr
  · intro ctx st now responses s dt hs hp
    unfold sync_event_log
    rw [show update_start_date_bookmark st (bookmarkKey IDS_EVENT_LOG)
          ctx.config_start_date = (s, []) from by
        unfold update_start_date_bookmark; rw [hs]]
    dsimp only
    rw [hp]
    dsimp only
    rw [List.nil_append]
    constructor
    · exact fetchReqs_head _ IDS_EVENT_LOG _
        (syncEventLogLoop_head_fetch ctx (fmtSecond dt) now responses none s)
    · intro n r hr
      obtain ⟨resp, cv, h1, h2, h3, h4⟩ :=
        syncEventLogLoop_fetch_succ ctx (fmtSecond dt) now responses none s
          n r hr
      exact ⟨resp, cv, h1, h2, h3, h4.trans rfl⟩

theorem C9_witness :
    (∀ r ∈ fetchReqs (sync_leads idCtx
        ⟨[], [([IDS_LEADS, "date_updated"], start0)], [], []⟩ []).1,
       r = Request.mk "/lead/"
         [("query", "date_updated>=\"2020-01-01T00:00\" sort:date_updated")]) ∧
    (∀ r ∈ fetchReqs (sync_activities idCtx stAct []).1,
       r = Request.mk "/activity/"
         [("date_created__gt", "2020-01-01T00:00:00")]) ∧
    ((fetchReqs (sync_event_log idCtx stEL nowEL [Except.ok resp1]).1).head?
       = some (Request.mk "/event/"
           [("date_updated__gte", "2024-01-01T10:00:00")]) ∧
     (∀ (n : Nat) (r : Request),
        (fetchReqs (sync_event_log idCtx stEL nowEL
          [Except.ok resp1]).1)[n+1]? = some r →
        ∃ resp cv, ([Except.ok resp1] : List (Except Unit Record))[n]?
            = some (Except.ok resp) ∧
          resp.get? "cursor_next" = some cv ∧ cv.falsy = false ∧
          r = Request.mk "/event/"
            [("date_updated__gte", "2024-01-01T10:00:00"),
             ("_cursor", cursorParamStr cv)])) :=
  ⟨C9_request_parameter_formats.1 idCtx
      ⟨[], [([IDS_LEADS, "date_updated"], start0)], [], []⟩ [] start0
      ⟨2020, 1, 1, 0, 0, 0, 0⟩ (by decide) (by decide),
   C9_request_parameter_formats.2.1 idCtx stAct []
      "2020-01-01T00:01:00.000000Z" ⟨2020, 1, 1, 0, 1, 0, 0⟩ (by decide)
      (by decide),
   C9_request_parameter_formats.2.2 idCtx stEL nowEL [Except.ok resp1]
      "2024-01-01T10:00:00.000000Z" ⟨2024, 1, 1, 10, 0, 0, 0⟩ (by decide)
      (by decide)⟩

/-- C10: every strategy requires each processed record to carry its
stream's bookmark field — and, for the event log, the `data` and
`previous_data` payload fields: a record lacking one of them makes the sync
abort with an uncaught lookup error instead of skipping the record, and no
bookmark is committed. -/
theorem C10_missing_field_aborts :
    (∀ (ctx : Ctx) (sid bkey : String) (req : Request) (start : String)
       (pages : List Page),
       BOOK_KEYS sid = some bkey →
       (∃ p ∈ pages, ∃ r ∈ xformPage ctx sid p,
          hasStrKey r bkey = false) →
       (paginated_sync ctx sid req start (pages.map Except.ok)).2 = false ∧
       hasSetBookmark (paginated_sync ctx sid req start
         (pages.map Except.ok)).1 = false) ∧
    (∀ (ctx : Ctx) (st : TapState) (now : PDateTime) (resp : Record)
       (rest : List (Except Unit Record)) (s : String) (dt : PDateTime)
       (xs : List Value) (recs : List Record),
       lookupAssoc st.bookmarks (bookmarkKey IDS_EVENT_LOG) = some s →
       parseIso s = some dt →
       resp.get? "data" = some (Value.arr xs) →
       xs ≠ [] →
       recordsOfValues xs = some recs →
       (∃ e ∈ format_dts ctx IDS_EVENT_LOG recs,
          e.get? "data" = none ∨ e.get? "previous_data" = none ∨
          hasStrKey e "date_updated" = false) →
       (sync_event_log ctx st now (Except.ok resp :: rest)).2 = false ∧
       hasSetBookmark (sync_event_log ctx st now
         (Except.ok resp :: rest)).1 = false) := by
  constructor
  · intro ctx sid bkey req start pages hb hbad
    have hpok : pagesOk ctx sid bkey pages = false := by
      cases hp2 : pagesOk ctx sid bkey pages with
      | false => rfl
      | true =>
        obtain ⟨p, hpmem, r, hrmem, hr⟩ := hbad
        unfold pagesOk at hp2
        rw [List.all_eq_true] at hp2
        have hall := hp2 p hpmem
        rw [List.all_eq_true] at hall
        rw [hall r hrmem] at hr
        cases hr
    have hfalse : (paginated_sync ctx sid req start
        (pages.map Except.ok)).2 = false := by
      unfold paginated_sync
      rw [hb]
      dsimp only
      exact paginatedSyncLoop_false_of_badPage ctx sid bkey req pages start
        start hpok
    refine ⟨hfalse, ?_⟩
    unfold paginated_sync at hfalse ⊢
    rw [hb] at hfalse ⊢
    dsimp only at hfalse ⊢
    exact paginatedSyncLoop_false_no_setBookmark ctx sid bkey req _ start
      start hfalse
  · intro ctx st now resp rest s dt xs recs hs hp hd hne hrv hbad
    have hfalse : (syncEventLogLoop ctx (fmtSecond dt) now
        (Except.ok resp :: rest) none s).2 = false := by
      unfold syncEventLogLoop
      rw [create_request_event_log]
      dsimp only
      rw [hd]
      dsimp only
      have hdf : (Value.arr xs).falsy = false := by
        cases xs with
        | nil => exact absurd rfl hne
        | cons a l => rfl
      rw [hdf]
      simp only [Bool.false_eq_true, if_false]
      rw [hrv]
      dsimp only
      cases hde : dumpEvents (format_dts ctx IDS_EVENT_LOG recs) with
      | error e => rfl
      | ok evs2 =>
        dsimp only
        obtain ⟨e, he, hbad'⟩ := hbad
        have hnm : new_max_bookmark s evs2 "date_updated" = .error () := by
          rcases hbad' with h1 | h2 | h3
          · rw [dumpEvents_error_of_missing _ e he (Or.inl h1)] at hde
            cases hde
          · rw [dumpEvents_error_of_missing _ e he (Or.inr h2)] at hde
            cases hde
          · obtain ⟨e', he', hb'⟩ :=
              dumpEvents_bad_date _ evs2 hde e he h3
            apply new_max_bookmark_error
            cases hall : evs2.all (fun r => hasStrKey r "date_updated") with
            | false => rfl
            | true =>
              rw [List.all_eq_true] at hall
              rw [hall e' he'] at hb'
              cases hb'
        rw [hnm]
    unfold sync_event_log
    rw [show update_start_date_bookmark st (bookmarkKey IDS_EVENT_LOG)
          ctx.config_start_date = (s, []) from by
        unfold update_start_date_bookmark; rw [hs]]
    dsimp only
    rw [hp]
    dsimp only
    refine ⟨hfalse, ?_⟩
    rw [List.nil_append]
    exact syncEventLogLoop_false_no_setBookmark ctx (fmtSecond dt) now
      (Except.ok resp :: rest) none s hfalse

/-- A page whose single record lacks the bookmark field. -/
def pgBad : Page := ⟨[[("foo", Value.num 1)]], 10⟩

/-- An event-log response whose single event lacks the `data` payload. -/
def respBad : Record :=
  [("data", Value.arr [Value.obj [("date_updated",
      Value.str "2024-01-01T10:30:00.000000Z")]]),
   ("cursor_next", Value.str "")]

theorem C10_witness :
    ((paginated_sync idCtx IDS_TASKS req0 start0
        ([pgBad].map Except.ok)).2 = false ∧
     hasSetBookmark (paginated_sync idCtx IDS_TASKS req0 start0
        ([pgBad].map Except.ok)).1 = false) ∧
    ((sync_event_log idCtx stEL nowEL [Except.ok respBad]).2 = false ∧
     hasSetBookmark (sync_event_log idCtx stEL nowEL
        [Except.ok respBad]).1 = false) :=
  ⟨C10_missing_field_aborts.1 idCtx IDS_TASKS "date_updated" req0 start0
      [pgBad] (by decide)
      ⟨pgBad, List.mem_cons_self _ _,
       [("foo", Value.num 1)], List.mem_cons_self _ _, by decide⟩,
   C10_missing_field_aborts.2 idCtx stEL nowEL respBad []
      "2024-01-01T10:00:00.000000Z" ⟨2024, 1, 1, 10, 0, 0, 0⟩
      [Value.obj [("date_updated", Value.str "2024-01-01T10:30:00.000000Z")]]
      [[("date_updated", Value.str "2024-01-01T10:30:00.000000Z")]]
      (by decide) (by decide) rfl (by simp) rfl
      ⟨[("date_updated", Value.str "2024-01-01T10:30:00.000000Z")],
       List.mem_cons_self _ _, Or.inl rfl⟩⟩

end TapCloseio
